import Mathlib

/-!
# Verification of the Provenant interception-and-background-recording layer

This development gives a shallow embedding of the Python SDK
(`packages/sdk-py/provenant_sdk.py`) and proves properties of the
interception layer, the session context manager, eval-run polling and the
public `instrument` entry point.

Modelling conventions:

* Backend writes are modelled by an abstract `Backend` value telling whether
  `create_session` succeeds (and which id it returns), whether `add_turn`
  succeeds, and whether `end_session` succeeds.  Every backend interaction is
  recorded as an `Event` in a trace, in the order it happens.
* The concurrent creation thread of the synchronous wrappers
  (`_create_session` in the source) is modelled as a list of atomic steps,
  each emitting at most one event and updating the two shared single-writer
  boxes (`session_id`, `session_ok`).  A `Sched` value says how many of those
  steps have completed at each synchronization point of the main path (start
  of the original call, return of `Thread.join`, and the moment the detached
  `_record_and_end` thread reads the boxes).  Quantifying over `Sched` covers
  every interleaving of the creation thread with the main path.
* The async wrapper has no creation thread: its pre-writes are awaited in
  program order, so its model is deterministic.
* `time.time`/`time.sleep` in `wait_for_completion` are modelled by an
  explicit natural-number clock advanced by the poll interval.
-/

namespace Provenant

/-- Turn roles, as the string constants used by the SDK. -/
inductive Role
  | USER
  | ASSISTANT
  | TOOL
deriving DecidableEq, Repr

/-- Terminal session statuses passed to `end_session`. -/
inductive SessionStatus
  | COMPLETED
  | FAILED
deriving DecidableEq, Repr

/-- One observable interaction, in trace order.  Backend calls appear as a
success event or a failure event (`...Fail` means the backend raised);
`origStart`/`origEnd` mark the invocation of the original wrapped provider
call; `restoreHandle` marks `_active_session.reset(token)`. -/
inductive Event
  | createSession (sid : String)
  | createSessionFail
  | addTurn (sid : String) (role : Role) (content : String)
  | addTurnFail (sid : String) (role : Role) (content : String)
  | endSession (sid : String) (status : SessionStatus)
  | endSessionFail (sid : String) (status : SessionStatus)
  | origStart
  | origEnd
  | restoreHandle
deriving DecidableEq, Repr

/-- Abstract behaviour of the tracking backend for one intercepted call:
`createResult = none` means `create_session` raises, `some sid` means it
returns a session whose id is `sid`; `addTurnOk`/`endOk` tell whether
`add_turn`/`end_session` raise. -/
structure Backend where
  createResult : Option String
  addTurnOk : Bool
  endOk : Bool
deriving DecidableEq, Repr

/-- The two shared single-writer boxes of the synchronous wrappers:
`session_id : List[Optional[str]]` and `session_ok : List[bool]`. -/
structure Boxes where
  sid : Option String
  ok : Bool
deriving DecidableEq, Repr

/-- The event produced by an `end_session(sid, status)` attempt. -/
def endEvent (b : Backend) (s : String) (st : SessionStatus) : Event :=
  if b.endOk then .endSession s st else .endSessionFail s st

/-! ## Messages and input-side extraction -/

/-- One structured content item of an Anthropic user message (a dict in a
content list); `payload` stands for the rest of the dict, opaquely. -/
structure CItem where
  ctype : String
  payload : String
deriving DecidableEq, Repr

/-- Message content: either a plain string or a list of content items. -/
inductive MContent
  | str (s : String)
  | items (l : List CItem)
deriving DecidableEq, Repr

/-- One input message of the `messages=[...]` kwarg. -/
structure Msg where
  role : String
  content : MContent
deriving DecidableEq, Repr

/-- Stand-in for `json.dumps` on a list of content items. -/
def dumpItems (l : List CItem) : String :=
  "[" ++ String.intercalate "," (l.map (fun c => c.payload)) ++ "]"

/-- Content passed to `add_turn`: strings go through unchanged, anything else
is JSON-dumped (source: `if not isinstance(content, str): content = json.dumps(content)`). -/
def contentToString : MContent → String
  | .str s => s
  | .items l => dumpItems l

/-- Source: `next((m for m in reversed(messages) if m.get("role") == "user"), None)`. -/
def lastUserMsg (msgs : List Msg) : Option Msg :=
  msgs.reverse.find? (fun m => m.role == "user")

/-- Source: `_detect_anthropic_tool_results` — `tool_result` items inside
list-valued user messages, in message order. -/
def anthropicToolResults (msgs : List Msg) : List CItem :=
  (msgs.map (fun m =>
    match m.role == "user", m.content with
    | true, .items l => l.filter (fun c => c.ctype == "tool_result")
    | _, _ => [])).flatten

/-- Source: `_detect_openai_tool_results` — messages with role `tool`. -/
def openaiToolResultMsgs (msgs : List Msg) : List Msg :=
  msgs.filter (fun m => m.role == "tool")

/-- The turns the creation unit of the Anthropic sync wrapper pre-writes:
one TOOL turn holding all detected tool results (when any), then the USER
turn for the most recent user message (when present). -/
def anthropicPreTurns (msgs : List Msg) : List (Role × String) :=
  (if anthropicToolResults msgs == [] then []
   else [(Role.TOOL, dumpItems (anthropicToolResults msgs))])
  ++ (match lastUserMsg msgs with
      | some m => [(Role.USER, contentToString m.content)]
      | none => [])

/-- The turns the creation unit of the OpenAI sync wrapper pre-writes:
one TOOL turn per tool-result message, then the USER turn. -/
def openaiPreTurns (msgs : List Msg) : List (Role × String) :=
  (openaiToolResultMsgs msgs).map (fun m => (Role.TOOL, contentToString m.content))
  ++ (match lastUserMsg msgs with
      | some m => [(Role.USER, contentToString m.content)]
      | none => [])

/-! ## The creation unit of the synchronous wrappers

`_create_session` in the source: create the session when unmanaged, then
write the pre-turns, then set `session_ok[0] = True`.  Any raise is caught
and ends the unit.  Each list entry is one atomic step: the event it emits
(if any) together with the box state after the step. -/

/-- Steps writing the pre-turns to session `s` held in `bx.sid`, ending with
the step that sets `session_ok[0] = True` (which emits no event).  A failing
`add_turn` raises, so the unit stops and the ok flag is never set. -/
def turnSteps (b : Backend) (bx : Boxes) : List (Role × String) → List (Option Event × Boxes)
  | [] => [(none, { bx with ok := true })]
  | (r, c) :: rest =>
    match bx.sid with
    | none => []
    | some s =>
      if b.addTurnOk then (some (.addTurn s r c), bx) :: turnSteps b bx rest
      else [(some (.addTurnFail s r c), bx)]

/-- The whole creation unit.  Managed calls skip `create_session` (the boxes
already hold the existing id with `ok = True`); unmanaged calls create the
session first and abort on failure. -/
def createSessionUnit (b : Backend) (isManaged : Bool) (existing : Option String)
    (preTurns : List (Role × String)) : List (Option Event × Boxes) :=
  let init : Boxes := ⟨existing, isManaged⟩
  if isManaged then
    match existing with
    | none => []
    | some _ => turnSteps b init preTurns
  else
    match b.createResult with
    | none => [(some .createSessionFail, init)]
    | some s =>
      (some (.createSession s), ⟨some s, init.ok⟩) :: turnSteps b ⟨some s, init.ok⟩ preTurns

/-- Box state visible after the first `n` steps of the unit have run. -/
def boxesAfter (init : Boxes) (run : List (Option Event × Boxes)) (n : Nat) : Boxes :=
  match (run.take n).getLast? with
  | some st => st.2
  | none => init

/-- Events emitted by steps `a` (inclusive) to `c` (exclusive) of the unit. -/
def eventsBetween (run : List (Option Event × Boxes)) (a c : Nat) : List Event :=
  ((run.drop a).take (c - a)).filterMap Prod.fst

/-- An interleaving of the creation thread with the main path: how many
creation steps have completed when the original call starts, when
`Thread.join` returns, and when the detached `_record_and_end` thread reads
the boxes.  The three points are ordered in time, so the model uses the
running maximum of the three fields; values beyond the number of steps are
clamped. -/
structure Sched where
  atCall : Nat
  atJoin : Nat
  atGuard : Nat
deriving DecidableEq, Repr

/-- Number of creation steps completed when `Thread.join` returns (the
running maximum of the schedule points up to the join, clamped). -/
def joinSteps (sch : Sched) (len : Nat) : Nat :=
  min (max sch.atCall sch.atJoin) len

/-- Number of creation steps completed when the detached `_record_and_end`
thread reads the boxes. -/
def guardSteps (sch : Sched) (len : Nat) : Nat :=
  min (max (max sch.atCall sch.atJoin) sch.atGuard) len

/-- The box state the detached recording thread observes when it runs. -/
def guardBoxes (b : Backend) (existing : Option String)
    (preTurns : List (Role × String)) (sch : Sched) : Boxes :=
  let isManaged := existing.isSome
  let run := createSessionUnit b isManaged existing preTurns
  boxesAfter ⟨existing, isManaged⟩ run (guardSteps sch run.length)

/-- Source `_record_and_end`: skip when the ok flag is unset or no session id
is available; otherwise write the ASSISTANT turn and, for unmanaged calls,
end the session COMPLETED (skipped when the turn write raises). -/
def recordAndEnd (b : Backend) (isManaged : Bool) (bx : Boxes) (content : String) : List Event :=
  match bx.sid with
  | none => []
  | some s =>
    if bx.ok then
      if b.addTurnOk then
        .addTurn s .ASSISTANT content ::
          (if isManaged then [] else [endEvent b s .COMPLETED])
      else [.addTurnFail s .ASSISTANT content]
    else []

/-- The best-effort FAILED marking on the exception path: issued only when
the `session_id` box is set at join time and the call is unmanaged
(`if session_id[0] and not is_managed`); its own failure is swallowed. -/
def failMarkEvents (b : Backend) (existing : Option String)
    (preTurns : List (Role × String)) (sch : Sched) : List Event :=
  let isManaged := existing.isSome
  let run := createSessionUnit b isManaged existing preTurns
  match (boxesAfter ⟨existing, isManaged⟩ run (joinSteps sch run.length)).sid, isManaged with
  | some s, false => [endEvent b s .FAILED]
  | _, _ => []

/-- Trace of the synchronous wrapper when the original call raises: creation
steps interleaved around the call start, `join(timeout=2)`, the best-effort
FAILED marking, then the rest of the creation thread. -/
def syncErrorTrace (b : Backend) (existing : Option String)
    (preTurns : List (Role × String)) (sch : Sched) : List Event :=
  let run := createSessionUnit b existing.isSome existing preTurns
  let n1 := min sch.atCall run.length
  let nJ := joinSteps sch run.length
  eventsBetween run 0 n1 ++ [.origStart] ++ eventsBetween run n1 nJ
    ++ failMarkEvents b existing preTurns sch ++ eventsBetween run nJ run.length

/-- Trace of the synchronous wrapper when the original call succeeds:
creation steps interleaved around the call, `join(timeout=5)`, the detached
`_record_and_end` thread (reading the boxes at its own schedule point), then
the rest of the creation thread. -/
def syncOkTrace (b : Backend) (existing : Option String)
    (preTurns : List (Role × String)) (content : String) (sch : Sched) : List Event :=
  let run := createSessionUnit b existing.isSome existing preTurns
  let n1 := min sch.atCall run.length
  let nJ := joinSteps sch run.length
  let nG := guardSteps sch run.length
  eventsBetween run 0 n1 ++ [.origStart] ++ eventsBetween run n1 nJ ++ [.origEnd]
    ++ eventsBetween run nJ nG
    ++ recordAndEnd b existing.isSome (guardBoxes b existing preTurns sch) content
    ++ eventsBetween run nG run.length

/-- The synchronous `instrumented_create` (non-streaming branch), common to
the Anthropic and OpenAI wrappers (they differ only in `preTurns` and in the
response-side extraction, abstracted as `assistantText`).  Returns the value
handed back to the caller and the complete trace of the execution under
interleaving `sch`.  `orig` is the outcome of the original provider call. -/
def instrumentedCreate {ε ρ : Type} (b : Backend) (existing : Option String)
    (preTurns : List (Role × String)) (orig : Except ε ρ) (assistantText : ρ → String)
    (sch : Sched) : Except ε ρ × List Event :=
  match orig with
  | .error e => (.error e, syncErrorTrace b existing preTurns sch)
  | .ok r => (.ok r, syncOkTrace b existing preTurns (assistantText r) sch)

/-! ## The `stream=True` branch of the synchronous wrappers -/

/-- A streaming delta, as probed by `getattr(c, "delta", None)`. -/
structure ADelta where
  dtype : String
  text : Option String
deriving DecidableEq, Repr

/-- One streamed chunk. -/
structure AChunk where
  delta : Option ADelta
deriving DecidableEq, Repr

/-- Source: concatenation of the `text` of every `text_delta` delta. -/
def streamText (chunks : List AChunk) : String :=
  String.join (chunks.map (fun c =>
    match c.delta with
    | some d => if d.dtype == "text_delta" then d.text.getD "" else ""
    | none => ""))

/-- Tail of the unmanaged streaming recorder: ASSISTANT turn then
`end_session` (the latter only reached when the turn write succeeds). -/
def streamTail (b : Backend) (s : String) (text : String) : List Event :=
  if b.addTurnOk then
    [.addTurn s .ASSISTANT text, endEvent b s .COMPLETED]
  else [.addTurnFail s .ASSISTANT text]

/-- The `stream=True` branch: the original call runs first and is eagerly
drained; the recorder runs on a detached thread afterwards.  The value
handed back is the drained chunk list itself. -/
def instrumentedCreateStream {ε : Type} (b : Backend) (existing : Option String)
    (msgs : List Msg) (orig : Except ε (List AChunk)) :
    Except ε (List AChunk) × List Event :=
  match orig with
  | .error e => (.error e, [.origStart])
  | .ok chunks =>
    let text := streamText chunks
    match existing with
    | some s =>
      (.ok chunks, [.origStart, .origEnd]
        ++ [if b.addTurnOk then .addTurn s .ASSISTANT text
            else .addTurnFail s .ASSISTANT text])
    | none =>
      let thread :=
        match b.createResult with
        | none => [Event.createSessionFail]
        | some s =>
          Event.createSession s ::
          (match lastUserMsg msgs with
           | some m =>
             let c := contentToString m.content
             if b.addTurnOk then .addTurn s .USER c :: streamTail b s text
             else [.addTurnFail s .USER c]
           | none => streamTail b s text)
      (.ok chunks, [.origStart, .origEnd] ++ thread)

/-! ## The scoped streaming wrapper (`_AnthropicStreamWrapper`) -/

/-- A content block of an Anthropic response; `text = none` models a block
without a `text` attribute. -/
structure ABlock where
  btype : String
  text : Option String
deriving DecidableEq, Repr

/-- An Anthropic response (`content` array plus optional usage). -/
structure AResp where
  content : List ABlock
  usageIn : Option Nat
  usageOut : Option Nat
deriving DecidableEq, Repr

/-- Source `_extract_anthropic_text`: concatenated `text` of the blocks that
have one. -/
def extractAnthropicText (r : AResp) : String :=
  String.join (r.content.filterMap (fun blk => blk.text))

/-- The background unit spawned by `__enter__` when the call is unmanaged:
create the session, write the USER turn when present, then set the ok box. -/
def wrapperCreateUnit (b : Backend) (isManaged : Bool) (existing : Option String)
    (msgs : List Msg) : List (Option Event × Boxes) :=
  if isManaged then []
  else
    let init : Boxes := ⟨existing, isManaged⟩
    match b.createResult with
    | none => [(some .createSessionFail, init)]
    | some s =>
      (some (.createSession s), ⟨some s, false⟩) ::
      (match lastUserMsg msgs with
       | some m =>
         let c := contentToString m.content
         if b.addTurnOk then
           [(some (.addTurn s .USER c), ⟨some s, false⟩), (none, ⟨some s, true⟩)]
         else [(some (.addTurnFail s .USER c), ⟨some s, false⟩)]
       | none => [(none, ⟨some s, true⟩)])

/-- The box state `__exit__` reads right after `join(timeout=5)` returns
(`nJoin` creation steps have completed at that moment). -/
def wrapperJoinBoxes (b : Backend) (isManaged : Bool) (existing : Option String)
    (msgs : List Msg) (nJoin : Nat) : Boxes :=
  let run := wrapperCreateUnit b isManaged existing msgs
  boxesAfter ⟨existing, isManaged⟩ run (min nJoin run.length)

/-- The wrapper's recording block: only when the boxes read at join time hold
a confirmed session does it fetch the final message (`finalMsg`; `.error`
models a raising `get_final_message`, swallowed) and spawn the detached
ASSISTANT-turn/end writes. -/
def wrapperRecordEvents (b : Backend) (isManaged : Bool) (bx : Boxes)
    (finalMsg : Except Unit AResp) : List Event :=
  match bx.sid, bx.ok with
  | some s, true =>
    match finalMsg with
    | .error _ => []
    | .ok fm =>
      let text := extractAnthropicText fm
      if b.addTurnOk then
        .addTurn s .ASSISTANT text ::
          (if isManaged then [] else [endEvent b s .COMPLETED])
      else [.addTurnFail s .ASSISTANT text]
  | _, _ => []

/-- `__exit__`: join the creation thread with a bound (`nJoin` creation steps
have completed when the join returns), read the boxes, and record when the
session is confirmed. -/
def wrapperExit (b : Backend) (isManaged : Bool) (existing : Option String)
    (msgs : List Msg) (finalMsg : Except Unit AResp) (nJoin : Nat) : List Event :=
  let run := wrapperCreateUnit b isManaged existing msgs
  let n := min nJoin run.length
  eventsBetween run 0 n
    ++ wrapperRecordEvents b isManaged (wrapperJoinBoxes b isManaged existing msgs nJoin)
        finalMsg
    ++ eventsBetween run n run.length

/-- `__iter__` of the wrapper delegates to the underlying stream untouched:
iterating the wrapper yields exactly the underlying chunks. -/
def wrapperIterate {χ : Type} (underlying : List χ) : List χ := underlying

/-! ## The async wrapper (`_instrument_anthropic_async`)

The async wrapper has no creation thread: session create and the pre-turn
writes are awaited in program order before the original call is invoked, so
the model is deterministic. -/

/-- Awaited pre-turn writes to session `s`; a raise aborts the remaining
writes (caught by the surrounding try). -/
def asyncTurnEvents (b : Backend) (s : String) : List (Role × String) → List Event
  | [] => []
  | (r, c) :: rest =>
    if b.addTurnOk then .addTurn s r c :: asyncTurnEvents b s rest
    else [.addTurnFail s r c]

/-- The awaited pre-block: create when unmanaged, then pre-turn writes.
Returns the `session_id` local after the block together with its events.
Note there is no ok flag in the async wrapper: the id stays set even when a
later pre-turn write raises. -/
def asyncPreEvents (b : Backend) (isManaged : Bool) (existing : Option String)
    (preTurns : List (Role × String)) : Option String × List Event :=
  if isManaged then
    match existing with
    | some s => (some s, asyncTurnEvents b s preTurns)
    | none => (none, [])
  else
    match b.createResult with
    | none => (none, [.createSessionFail])
    | some s => (some s, .createSession s :: asyncTurnEvents b s preTurns)

/-- The async `instrumented_create`: awaited pre-block, original call,
best-effort FAILED marking on a raise, detached ASSISTANT/end recording on
success. -/
def instrumentedCreateAsync {ε ρ : Type} (b : Backend) (existing : Option String)
    (preTurns : List (Role × String)) (orig : Except ε ρ) (assistantText : ρ → String) :
    Except ε ρ × List Event :=
  let isManaged := existing.isSome
  let pe := asyncPreEvents b isManaged existing preTurns
  let sid := pe.1
  let preEvts := pe.2
  match orig with
  | .error e =>
    let endEvts : List Event :=
      match sid, isManaged with
      | some s, false => [endEvent b s .FAILED]
      | _, _ => []
    (.error e, preEvts ++ [.origStart] ++ endEvts)
  | .ok r =>
    let recEvts : List Event :=
      match sid with
      | none => []
      | some s =>
        if b.addTurnOk then
          .addTurn s .ASSISTANT (assistantText r) ::
            (if isManaged then [] else [endEvent b s .COMPLETED])
        else [.addTurnFail s .ASSISTANT (assistantText r)]
    (.ok r, preEvts ++ [.origStart, .origEnd] ++ recEvts)

/-! ## The `ProvenantClient.session` context manager -/

/-- Observable outcome of one `with prov.session(...)` scope.  `yielded` is
the value bound by `as sid`; `bodyHandle` is the `_active_session` value the
body observes; `finalHandle` is the value after the scope exits. -/
structure SessionOutcome (ε α : Type) where
  result : Except ε α
  yielded : Option String
  bodyHandle : Option String
  finalHandle : Option String
  trace : List Event
deriving Repr

/-- The `session` context manager: on a failed `create_session` it warns,
yields `none` and leaves the handle untouched, issuing no `end_session`; on
success it installs the new id, runs the body, then (in `finally`) restores
the handle and ends the session COMPLETED, swallowing end failures.  The
body receives the yielded value and the handle value it observes. -/
def sessionRun {ε α : Type} (b : Backend) (prior : Option String)
    (body : Option String → Option String → Except ε α) : SessionOutcome ε α :=
  match b.createResult with
  | none =>
    { result := body none prior
      yielded := none
      bodyHandle := prior
      finalHandle := prior
      trace := [.createSessionFail] }
  | some s =>
    { result := body (some s) (some s)
      yielded := some s
      bodyHandle := some s
      finalHandle := prior
      trace := [.createSession s, .restoreHandle, endEvent b s .COMPLETED] }

/-! ## Eval-run polling (`wait_for_completion`) -/

/-- Terminal statuses: `run["status"] in ("COMPLETED", "FAILED")`. -/
def terminalStatus (s : String) : Bool :=
  s == "COMPLETED" || s == "FAILED"

/-- The polling loop over an explicit clock `t` (time units since the call):
while `t < deadline`, poll; return on a terminal status, else sleep for the
poll interval.  When the clock reaches the deadline the loop exits and the
timeout error is raised, carrying the raise time.  `fuel` only forces
termination; with a positive poll interval it is never exhausted. -/
def waitLoop (statusAt : Nat → String) (p dl : Nat) : Nat → Nat → Except Nat (String × Nat)
  | t, 0 => .error t
  | t, fuel + 1 =>
    if t < dl then
      if terminalStatus (statusAt t) then .ok (statusAt t, t)
      else waitLoop statusAt p dl (t + p) fuel
    else .error t

/-- `wait_for_completion` with the clock started at 0 and deadline
`dl` (= timeout in time units); `p` is the poll interval.  The `.error` case
is the source raising its poll-timeout error. -/
def wait_for_completion (statusAt : Nat → String) (p dl : Nat) : Except Nat (String × Nat) :=
  waitLoop statusAt p dl 0 (dl + 1)

/-! ## The public `instrument` entry point -/

/-- Naive substring test (stands for Python `in` on strings). -/
def strContains (hay pat : String) : Bool :=
  (List.range (hay.toList.length + 1)).any
    (fun i => (hay.toList.drop i).take pat.toList.length == pat.toList)

/-- Lower-casing, character-wise (stands for `str.lower()`). -/
def lowerString (s : String) : String :=
  ⟨s.toList.map Char.toLower⟩

/-- Hex digit, both cases (the UUID regex is case-insensitive). -/
def isHexDigit (c : Char) : Bool :=
  c.isDigit || ("abcdefABCDEF".toList.contains c)

/-- Split a character list at every hyphen (the semantics of
`s.splitOn "-"` for the single-character separator). -/
def splitOnDash : List Char → List (List Char)
  | [] => [[]]
  | c :: rest =>
    if c = '-' then [] :: splitOnDash rest
    else
      match splitOnDash rest with
      | [] => [[c]]
      | g :: gs => (c :: g) :: gs

/-- The `_UUID_RE` full match: five hyphen-separated hex groups of lengths
8, 4, 4, 4, 12. -/
def isUUIDMatch (s : String) : Bool :=
  match splitOnDash s.toList with
  | [a, b2, c, d, e] =>
    a.length == 8 && b2.length == 4 && c.length == 4 && d.length == 4
      && e.length == 12 && (a ++ b2 ++ c ++ d ++ e).all isHexDigit
  | _ => false

/-- The client type, as probed via `type(client).__module__` and
`type(client).__qualname__`. -/
structure ClientTy where
  module : String
  qualname : String
deriving DecidableEq, Repr

/-- Source: `f"{module}.{qualname}"` lower-cased (written here without
braces). -/
def clientIdentifier (c : ClientTy) : String :=
  lowerString c.module ++ "." ++ lowerString c.qualname

/-- Supported provider families. -/
inductive Provider
  | anthropic
  | openai
deriving DecidableEq, Repr

/-- Provider detection, in source order (anthropic checked first). -/
def detectProvider (ident : String) : Option Provider :=
  if strContains ident "anthropic" then some .anthropic
  else if strContains ident "openai" then some .openai
  else none

/-- The two ways `instrument` can raise: a backend error propagated from
`get_or_create_agent` while resolving a non-UUID agent name, or the
unsupported-client `ValueError`. -/
inductive InstrumentError
  | backendError
  | unsupportedClient
deriving DecidableEq, Repr

/-- The `instrument` entry point.  `getOrCreate` is the outcome of the
backend call `get_or_create_agent(agent_id)` (`none` = it raises).  Mirrors
the source order: the agent id is resolved (possibly calling the backend)
before the client type is inspected.  On success it returns the resolved id,
the detected provider and whether the async wrapper was installed. -/
def instrument (getOrCreate : Option String) (agentId : String) (c : ClientTy) :
    Except InstrumentError (String × Provider × Bool) :=
  match (if isUUIDMatch agentId then some agentId else getOrCreate) with
  | none => .error .backendError
  | some rid =>
    let ident := clientIdentifier c
    let isAsync := strContains (lowerString c.qualname) "async"
    match detectProvider ident with
    | some p => .ok (rid, p, isAsync)
    | none => .error .unsupportedClient

/-! ## Trace observations -/

/-- The role of a turn-write attempt, `none` for non-turn events. -/
def turnRole : Event → Option Role
  | .addTurn _ r _ => some r
  | .addTurnFail _ r _ => some r
  | _ => none

/-- Number of turn-write attempts (successful or raising) with role `r`. -/
def countRole (r : Role) (tr : List Event) : Nat :=
  tr.countP (fun ev => turnRole ev == some r)

/-- Number of `create_session` attempts (successful or raising). -/
def countCreateAttempts (tr : List Event) : Nat :=
  tr.countP (fun ev => match ev with
    | .createSession _ => true
    | .createSessionFail => true
    | _ => false)

/-- Number of successful `create_session` calls. -/
def countCreated (tr : List Event) : Nat :=
  tr.countP (fun ev => match ev with
    | .createSession _ => true
    | _ => false)

/-- Number of `end_session` attempts (successful or raising) with status `st`. -/
def countEnd (st : SessionStatus) (tr : List Event) : Nat :=
  tr.countP (fun ev => match ev with
    | .endSession _ s2 => s2 == st
    | .endSessionFail _ s2 => s2 == st
    | _ => false)

/-- The session a turn-write attempt targets, `none` for non-turn events. -/
def turnTarget : Event → Option String
  | .addTurn s _ _ => some s
  | .addTurnFail s _ _ => some s
  | _ => none

/-- Every turn-write attempt in the trace targets session `s`. -/
def turnsOnlyTo (s : String) (tr : List Event) : Bool :=
  tr.all (fun ev => (turnTarget ev).getD s == s)

/-- Session ids whose successful creation has been observed, newest first,
starting from `acc`. -/
def accAfter : List Event → List String → List String
  | [], acc => acc
  | .createSession s :: r, acc => accAfter r (s :: acc)
  | _ :: r, acc => accAfter r acc

/-- Scan of the trace checking that every turn-write attempt targets a
session whose successful creation appears strictly earlier (or is already in
`acc`). -/
def turnsGuarded : List Event → List String → Bool
  | [], _ => true
  | .createSession s :: r, acc => turnsGuarded r (s :: acc)
  | .addTurn s _ _ :: r, acc => acc.contains s && turnsGuarded r acc
  | .addTurnFail s _ _ :: r, acc => acc.contains s && turnsGuarded r acc
  | _ :: r, acc => turnsGuarded r acc

/-- Events a scan that already saw the creation of `s` always passes: turn
writes to `s` and anything that is neither a turn nor a successful create. -/
def tameFor (s : String) : Event → Bool
  | .addTurn s2 _ _ => s2 == s
  | .addTurnFail s2 _ _ => s2 == s
  | .createSession _ => false
  | _ => true

/-! ## General trace lemmas -/

theorem turnsGuarded_append (xs ys : List Event) (acc : List String) :
    turnsGuarded (xs ++ ys) acc
      = (turnsGuarded xs acc && turnsGuarded ys (accAfter xs acc)) := by
  induction xs generalizing acc with
  | nil => simp [turnsGuarded, accAfter]
  | cons e r ih =>
    cases e <;> simp [turnsGuarded, accAfter, ih, Bool.and_assoc]

theorem accAfter_append (xs ys : List Event) (acc : List String) :
    accAfter (xs ++ ys) acc = accAfter ys (accAfter xs acc) := by
  induction xs generalizing acc with
  | nil => rfl
  | cons e r ih => cases e <;> simp [accAfter, ih]

theorem accAfter_extends (l : List Event) (acc : List String) :
    ∀ x ∈ acc, x ∈ accAfter l acc := by
  induction l generalizing acc with
  | nil => exact fun x hx => hx
  | cons e r ih =>
    intro x hx
    cases e <;> simp only [accAfter] <;>
      first
        | exact ih _ x hx
        | exact ih _ x (by simp [hx])

theorem turnsGuarded_of_tame {s : String} {l : List Event}
    (h : ∀ ev ∈ l, tameFor s ev = true) {acc : List String} (hs : s ∈ acc) :
    turnsGuarded l acc = true := by
  induction l generalizing acc with
  | nil => rfl
  | cons e r ih =>
    have he := h e (by simp)
    have hr : ∀ ev ∈ r, tameFor s ev = true := fun ev hm => h ev (by simp [hm])
    have hcont : acc.contains s = true := List.elem_iff.mpr hs
    cases e with
    | createSession s2 => simp [tameFor] at he
    | addTurn s2 rr cc =>
      have : s2 = s := by simpa [tameFor] using he
      subst this
      simp [turnsGuarded, hcont, ih hr hs, hs]
    | addTurnFail s2 rr cc =>
      have : s2 = s := by simpa [tameFor] using he
      subst this
      simp [turnsGuarded, hcont, ih hr hs, hs]
    | _ => simp [turnsGuarded, ih hr hs]

theorem accAfter_of_tame {s : String} {l : List Event}
    (h : ∀ ev ∈ l, tameFor s ev = true) (acc : List String) :
    accAfter l acc = acc := by
  induction l with
  | nil => rfl
  | cons e r ih =>
    have he := h e (by simp)
    have hr : ∀ ev ∈ r, tameFor s ev = true := fun ev hm => h ev (by simp [hm])
    cases e <;> simp [tameFor] at he <;> simp [accAfter, ih hr]

theorem turnsGuarded_of_noTurns {l : List Event}
    (h : ∀ ev ∈ l, turnRole ev = none) (acc : List String) :
    turnsGuarded l acc = true := by
  induction l generalizing acc with
  | nil => rfl
  | cons e r ih =>
    have he := h e (by simp)
    have hr : ∀ ev ∈ r, turnRole ev = none := fun ev hm => h ev (by simp [hm])
    cases e <;> simp [turnRole] at he ⊢ <;> exact ih hr _

theorem eventsBetween_self (run : List (Option Event × Boxes)) (a : Nat) :
    eventsBetween run a a = [] := by
  simp [eventsBetween]

theorem eventsBetween_append (run : List (Option Event × Boxes)) {a c d : Nat}
    (hac : a ≤ c) (hcd : c ≤ d) :
    eventsBetween run a c ++ eventsBetween run c d = eventsBetween run a d := by
  unfold eventsBetween
  rw [← List.filterMap_append]
  congr 1
  have h1 : run.drop c = (run.drop a).drop (c - a) := by
    rw [List.drop_drop]; congr 1; omega
  rw [h1, ← List.take_add]
  congr 1
  omega

theorem mem_eventsBetween {run : List (Option Event × Boxes)} {a c : Nat} {ev : Event}
    (h : ev ∈ eventsBetween run a c) : ev ∈ run.filterMap Prod.fst := by
  unfold eventsBetween at h
  have hs : (((run.drop a).take (c - a)).filterMap Prod.fst).Sublist
      (run.filterMap Prod.fst) :=
    List.Sublist.filterMap _
      ((List.take_sublist _ _).trans (List.drop_sublist _ _))
  exact hs.subset h

theorem eventsBetween_full (run : List (Option Event × Boxes)) :
    eventsBetween run 0 run.length = run.filterMap Prod.fst := by
  simp [eventsBetween]

theorem boxesAfter_eq_init_or_mem (init : Boxes) (run : List (Option Event × Boxes)) (n : Nat) :
    boxesAfter init run n = init ∨ ∃ st ∈ run, boxesAfter init run n = st.2 := by
  unfold boxesAfter
  cases h : (run.take n).getLast? with
  | none => left; rfl
  | some st =>
    right
    exact ⟨st, (List.take_sublist n run).subset (List.mem_of_mem_getLast? h), rfl⟩

theorem boxesAfter_zero (init : Boxes) (run : List (Option Event × Boxes)) :
    boxesAfter init run 0 = init := by
  simp [boxesAfter]

theorem boxesAfter_ne_init_pos {init : Boxes} {run : List (Option Event × Boxes)} {n : Nat}
    (h : boxesAfter init run n ≠ init) : 1 ≤ n := by
  by_contra hn
  have h0 : n = 0 := by omega
  exact h (h0 ▸ boxesAfter_zero init run)

theorem boxesAfter_const {init : Boxes} {run : List (Option Event × Boxes)}
    (h : ∀ st ∈ run, st.2 = init) (n : Nat) : boxesAfter init run n = init := by
  rcases boxesAfter_eq_init_or_mem init run n with he | ⟨st, hm, he⟩
  · exact he
  · rw [he, h st hm]

/-! ## Structure of the creation unit -/

theorem turnSteps_tame (b : Backend) {bx : Boxes} {s : String} (hb : bx.sid = some s)
    (pre : List (Role × String)) :
    ∀ ev ∈ (turnSteps b bx pre).filterMap Prod.fst, tameFor s ev = true := by
  induction pre with
  | nil => simp [turnSteps]
  | cons rc rest ih =>
    obtain ⟨r, c⟩ := rc
    intro ev hm
    by_cases hA : b.addTurnOk = true
    · simp only [turnSteps, hb, hA, if_true] at hm
      rw [List.filterMap_cons] at hm
      simp only [List.mem_cons] at hm
      rcases hm with h1 | h2
      · subst h1; simp [tameFor]
      · exact ih ev h2
    · have hA2 : b.addTurnOk = false := by simpa using hA
      simp only [turnSteps, hb, hA2, Bool.false_eq_true, if_false] at hm
      rw [List.filterMap_cons] at hm
      simp only [List.filterMap_nil, List.mem_singleton] at hm
      subst hm; simp [tameFor]

theorem turnSteps_boxes (b : Backend) (bx : Boxes) (pre : List (Role × String)) :
    ∀ st ∈ turnSteps b bx pre, st.2 = bx ∨ st.2 = { bx with ok := true } := by
  induction pre with
  | nil => simp [turnSteps]
  | cons rc rest ih =>
    obtain ⟨r, c⟩ := rc
    intro st hm
    cases hb : bx.sid with
    | none => simp [turnSteps, hb] at hm
    | some s =>
      by_cases hA : b.addTurnOk = true
      · simp only [turnSteps, hb, hA, if_true, List.mem_cons] at hm
        rcases hm with h1 | h2
        · left; rw [h1]
        · rcases ih st h2 with h3 | h3
          · exact Or.inl h3
          · right
            rw [hb] at h3
            exact h3
      · have hA2 : b.addTurnOk = false := by simpa using hA
        simp only [turnSteps, hb, hA2, Bool.false_eq_true, if_false,
          List.mem_singleton] at hm
        left; rw [hm]

theorem turnSteps_roles (b : Backend) (bx : Boxes) (pre : List (Role × String)) :
    ∀ ev ∈ (turnSteps b bx pre).filterMap Prod.fst, ∀ r, turnRole ev = some r →
      r ∈ pre.map Prod.fst := by
  induction pre with
  | nil => simp [turnSteps]
  | cons rc rest ih =>
    obtain ⟨r0, c0⟩ := rc
    intro ev hm r hr
    cases hb : bx.sid with
    | none => simp [turnSteps, hb] at hm
    | some s =>
      by_cases hA : b.addTurnOk = true
      · simp only [turnSteps, hb, hA, if_true] at hm
        rw [List.filterMap_cons] at hm
        simp only [List.mem_cons] at hm
        rcases hm with h1 | h2
        · subst h1
          simp only [turnRole, Option.some.injEq] at hr
          simp [hr]
        · exact List.mem_cons_of_mem _ (ih ev h2 r hr)
      · have hA2 : b.addTurnOk = false := by simpa using hA
        simp only [turnSteps, hb, hA2, Bool.false_eq_true, if_false] at hm
        rw [List.filterMap_cons] at hm
        simp only [List.filterMap_nil, List.mem_singleton] at hm
        subst hm
        simp only [turnRole, Option.some.injEq] at hr
        simp [hr]

theorem turnSteps_allOk (b : Backend) {bx : Boxes} {s : String} (hb : bx.sid = some s)
    (hA : b.addTurnOk = true) (pre : List (Role × String)) :
    turnSteps b bx pre
      = pre.map (fun rc => (some (Event.addTurn s rc.1 rc.2), bx))
        ++ [(none, { bx with ok := true })] := by
  induction pre with
  | nil => simp [turnSteps]
  | cons rc rest ih =>
    obtain ⟨r, c⟩ := rc
    simp [turnSteps, hb, hA, ih]

theorem asyncTurnEvents_allOk (b : Backend) (s : String) (hA : b.addTurnOk = true)
    (pre : List (Role × String)) :
    asyncTurnEvents b s pre = pre.map (fun rc => Event.addTurn s rc.1 rc.2) := by
  induction pre with
  | nil => rfl
  | cons rc rest ih =>
    obtain ⟨r, c⟩ := rc
    simp [asyncTurnEvents, hA, ih]

theorem createSessionUnit_createFail (b : Backend) (pre : List (Role × String))
    (hc : b.createResult = none) :
    createSessionUnit b false none pre
      = [(some Event.createSessionFail, ⟨none, false⟩)] := by
  simp [createSessionUnit, hc]

theorem createSessionUnit_createOk (b : Backend) (pre : List (Role × String))
    {s : String} (hc : b.createResult = some s) :
    createSessionUnit b false none pre
      = (some (Event.createSession s), ⟨some s, false⟩)
        :: turnSteps b ⟨some s, false⟩ pre := by
  simp [createSessionUnit, hc]

theorem createSessionUnit_managed (b : Backend) (pre : List (Role × String)) (s : String) :
    createSessionUnit b true (some s) pre = turnSteps b ⟨some s, true⟩ pre := by
  simp [createSessionUnit]

theorem createRun_sid (b : Backend) (pre : List (Role × String)) {s : String}
    (hc : b.createResult = some s) :
    ∀ st ∈ createSessionUnit b false none pre, st.2.sid = some s := by
  rw [createSessionUnit_createOk b pre hc]
  intro st hm
  rcases List.mem_cons.mp hm with h | h
  · rw [h]
  · rcases turnSteps_boxes b ⟨some s, false⟩ pre st h with h2 | h2 <;> rw [h2]

/-- Generic slice lemma: for a creation run whose first step emits
`createSession s` and whose remaining steps emit only events tame for `s`,
every slice of the run is guarded, and any slice touching step 0 makes `s`
available to later slices. -/
theorem sliceGuard {run : List (Option Event × Boxes)} {s : String}
    {bxh : Boxes} {tail : List (Option Event × Boxes)}
    (hrun : run = (some (Event.createSession s), bxh) :: tail)
    (htail : ∀ ev ∈ tail.filterMap Prod.fst, tameFor s ev = true)
    (a c : Nat) (acc : List String) (hs : 1 ≤ a → s ∈ acc) :
    turnsGuarded (eventsBetween run a c) acc = true
    ∧ (1 ≤ c → s ∈ accAfter (eventsBetween run a c) acc)
    ∧ ∀ x ∈ acc, x ∈ accAfter (eventsBetween run a c) acc := by
  subst hrun
  match a with
  | 0 =>
    match c with
    | 0 => simp [eventsBetween_self, turnsGuarded, accAfter]
    | Nat.succ k =>
      have hEB : eventsBetween ((some (Event.createSession s), bxh) :: tail) 0 (k + 1)
          = Event.createSession s :: (tail.take k).filterMap Prod.fst := by
        simp [eventsBetween]
      have htk : ∀ ev ∈ (tail.take k).filterMap Prod.fst, tameFor s ev = true := by
        intro ev hm
        exact htail ev
          ((List.Sublist.filterMap _ (List.take_sublist _ _)).subset hm)
      rw [hEB]
      refine ⟨?_, ?_, ?_⟩
      · show turnsGuarded ((tail.take k).filterMap Prod.fst) (s :: acc) = true
        exact turnsGuarded_of_tame htk (by simp)
      · intro _
        show s ∈ accAfter ((tail.take k).filterMap Prod.fst) (s :: acc)
        rw [accAfter_of_tame htk]
        simp
      · intro x hx
        show x ∈ accAfter ((tail.take k).filterMap Prod.fst) (s :: acc)
        rw [accAfter_of_tame htk]
        simp [hx]
  | Nat.succ j =>
    have hsacc : s ∈ acc := hs (by omega)
    have hmem : ∀ ev ∈ eventsBetween ((some (Event.createSession s), bxh) :: tail)
        (j + 1) c, tameFor s ev = true := by
      intro ev hm
      unfold eventsBetween at hm
      simp only [List.drop_succ_cons] at hm
      have : ev ∈ (tail.drop j).filterMap Prod.fst :=
        (List.Sublist.filterMap _ (List.take_sublist _ _)).subset hm
      exact htail ev ((List.Sublist.filterMap _ (List.drop_sublist _ _)).subset this)
    refine ⟨turnsGuarded_of_tame hmem hsacc, ?_, ?_⟩
    · intro _
      rw [accAfter_of_tame hmem]
      exact hsacc
    · intro x hx
      rw [accAfter_of_tame hmem]
      exact hx

theorem turnRole_endEvent (b : Backend) (s : String) (st : SessionStatus) :
    turnRole (endEvent b s st) = none := by
  unfold endEvent; split <;> rfl

theorem tameFor_endEvent (s2 : String) (b : Backend) (s : String) (st : SessionStatus) :
    tameFor s2 (endEvent b s st) = true := by
  unfold endEvent; split <;> rfl

theorem accAfter_endEvent (b : Backend) (s : String) (st : SessionStatus)
    (acc : List String) : accAfter [endEvent b s st] acc = acc := by
  unfold endEvent; split <;> rfl

theorem turnsGuarded_origStart (acc : List String) :
    turnsGuarded [Event.origStart] acc = true := rfl

theorem accAfter_origStart (acc : List String) :
    accAfter [Event.origStart] acc = acc := rfl

theorem turnsGuarded_origEnd (acc : List String) :
    turnsGuarded [Event.origEnd] acc = true := rfl

theorem accAfter_origEnd (acc : List String) :
    accAfter [Event.origEnd] acc = acc := rfl

theorem failMark_noTurns (b : Backend) (existing : Option String)
    (pre : List (Role × String)) (sch : Sched) :
    ∀ ev ∈ failMarkEvents b existing pre sch, turnRole ev = none := by
  intro ev hm
  simp only [failMarkEvents] at hm
  split at hm
  · simp only [List.mem_singleton] at hm
    rw [hm]
    exact turnRole_endEvent _ _ _
  · simp at hm

theorem accAfter_failMark (b : Backend) (existing : Option String)
    (pre : List (Role × String)) (sch : Sched) (acc : List String) :
    accAfter (failMarkEvents b existing pre sch) acc = acc := by
  simp only [failMarkEvents]
  split
  · exact accAfter_endEvent _ _ _ _
  · rfl

theorem turnsGuarded_failMark (b : Backend) (existing : Option String)
    (pre : List (Role × String)) (sch : Sched) (acc : List String) :
    turnsGuarded (failMarkEvents b existing pre sch) acc = true :=
  turnsGuarded_of_noTurns (failMark_noTurns b existing pre sch) acc

theorem recordAndEnd_tame {b : Backend} {im : Bool} {bx : Boxes} {ct : String}
    {s : String} (h : bx.sid = none ∨ bx.sid = some s) :
    ∀ ev ∈ recordAndEnd b im bx ct, tameFor s ev = true := by
  rcases h with h | h
  · simp [recordAndEnd, h]
  · intro ev hm
    simp only [recordAndEnd, h] at hm
    by_cases hok : bx.ok = true
    · simp only [hok, if_true] at hm
      by_cases hA : b.addTurnOk = true
      · simp only [hA, if_true, List.mem_cons] at hm
        rcases hm with h1 | h1
        · rw [h1]; simp [tameFor]
        · by_cases him : im = true
          · simp [him] at h1
          · have : im = false := by simpa using him
            simp only [this, Bool.false_eq_true, if_false,
              List.mem_singleton] at h1
            rw [h1]
            exact tameFor_endEvent _ _ _ _
      · have hA2 : b.addTurnOk = false := by simpa using hA
        simp only [hA2, Bool.false_eq_true, if_false, List.mem_singleton] at hm
        rw [hm]; simp [tameFor]
    · have hok2 : bx.ok = false := by simpa using hok
      simp [hok2] at hm

/-- The detached recording thread of the synchronous wrappers only observes a
box state that is either the initial one or one written by the creation
unit. -/
theorem guardBoxes_cases (b : Backend) (pre : List (Role × String)) (sch : Sched) :
    (guardBoxes b none pre sch).sid = none
    ∨ (b.createResult = none ∧ guardBoxes b none pre sch = ⟨none, false⟩)
    ∨ ∃ s, b.createResult = some s ∧ (guardBoxes b none pre sch).sid = some s := by
  unfold guardBoxes
  simp only [Option.isSome_none]
  cases hc : b.createResult with
  | none =>
    right; left
    refine ⟨rfl, ?_⟩
    apply boxesAfter_const
    rw [createSessionUnit_createFail b pre hc]
    simp
  | some s =>
    rcases boxesAfter_eq_init_or_mem ⟨none, false⟩ (createSessionUnit b false none pre)
        (guardSteps sch (createSessionUnit b false none pre).length) with he | ⟨st, hm, he⟩
    · left; rw [he]
    · right; right
      exact ⟨s, rfl, by rw [he]; exact createRun_sid b pre hc st hm⟩

/-- Under every interleaving, the error-path trace of an unmanaged
synchronous call never writes a turn to a session whose creation was not
observed earlier in the trace. -/
theorem syncErrorTrace_guarded (b : Backend) (pre : List (Role × String)) (sch : Sched) :
    turnsGuarded (syncErrorTrace b none pre sch) [] = true := by
  simp only [syncErrorTrace, Option.isSome_none]
  cases hc : b.createResult with
  | none =>
    apply turnsGuarded_of_noTurns
    intro ev hm
    simp only [List.mem_append] at hm
    rcases hm with ((((h | h) | h) | h) | h)
    · have := mem_eventsBetween h
      rw [createSessionUnit_createFail b pre hc] at this
      simp only [List.filterMap_cons, List.filterMap_nil] at this
      simp only [List.mem_singleton] at this
      rw [this]; rfl
    · simp only [List.mem_singleton] at h; rw [h]; rfl
    · have := mem_eventsBetween h
      rw [createSessionUnit_createFail b pre hc] at this
      simp only [List.filterMap_cons, List.filterMap_nil] at this
      simp only [List.mem_singleton] at this
      rw [this]; rfl
    · exact failMark_noTurns b none pre sch ev h
    · have := mem_eventsBetween h
      rw [createSessionUnit_createFail b pre hc] at this
      simp only [List.filterMap_cons, List.filterMap_nil] at this
      simp only [List.mem_singleton] at this
      rw [this]; rfl
  | some s =>
    have hrun := createSessionUnit_createOk b pre hc
    have htail : ∀ ev ∈ (turnSteps b ⟨some s, false⟩ pre).filterMap Prod.fst,
        tameFor s ev = true := turnSteps_tame b rfl pre
    have hsl := sliceGuard hrun htail
    set run := createSessionUnit b false none pre with hrundef
    set n1 := min sch.atCall run.length with hn1def
    set nJ := joinSteps sch run.length with hnJdef
    simp only [turnsGuarded_append, accAfter_append, turnsGuarded_origStart,
      accAfter_origStart, turnsGuarded_failMark, accAfter_failMark,
      Bool.true_and, Bool.and_eq_true, and_true, true_and]
    rcases Nat.eq_zero_or_pos n1 with h1 | h1
    · rcases Nat.eq_zero_or_pos nJ with hJ | hJ
      · rw [h1, hJ]
        rw [eventsBetween_self]
        exact ⟨⟨rfl, rfl⟩, (hsl 0 run.length _ (by omega)).1⟩
      · rw [h1]
        rw [eventsBetween_self]
        have hm2 : s ∈ accAfter (eventsBetween run 0 nJ) (accAfter [] []) :=
          (hsl 0 nJ (accAfter [] []) (by omega)).2.1 hJ
        exact ⟨⟨rfl, (hsl 0 nJ (accAfter [] []) (by omega)).1⟩,
          (hsl nJ run.length _ (fun _ => hm2)).1⟩
    · have hJ : 1 ≤ nJ := by
        have : n1 ≤ nJ := by
          rw [hn1def, hnJdef]
          unfold joinSteps
          omega
        omega
      have gA := hsl 0 n1 [] (by omega)
      have hm1 : s ∈ accAfter (eventsBetween run 0 n1) [] := gA.2.1 h1
      have gC := hsl n1 nJ _ (fun _ => hm1)
      have hm2 : s ∈ accAfter (eventsBetween run n1 nJ)
          (accAfter (eventsBetween run 0 n1) []) := gC.2.2 s hm1
      exact ⟨⟨gA.1, gC.1⟩, (hsl nJ run.length _ (fun _ => hm2)).1⟩

/-- Under every interleaving, the success-path trace of an unmanaged
synchronous call never writes a turn (USER, TOOL or ASSISTANT) to a session
whose creation was not observed earlier in the trace. -/
theorem syncOkTrace_guarded (b : Backend) (pre : List (Role × String))
    (content : String) (sch : Sched) :
    turnsGuarded (syncOkTrace b none pre content sch) [] = true := by
  simp only [syncOkTrace, Option.isSome_none]
  cases hc : b.createResult with
  | none =>
    have hbx : guardBoxes b none pre sch = ⟨none, false⟩ := by
      unfold guardBoxes
      simp only [Option.isSome_none]
      apply boxesAfter_const
      rw [createSessionUnit_createFail b pre hc]
      simp
    apply turnsGuarded_of_noTurns
    intro ev hm
    simp only [List.mem_append] at hm
    rcases hm with (((((h | h) | h) | h) | h) | h) | h
    all_goals first
      | (have hx := mem_eventsBetween h
         rw [createSessionUnit_createFail b pre hc] at hx
         simp only [List.filterMap_cons, List.filterMap_nil] at hx
         simp only [List.mem_singleton] at hx
         rw [hx]; rfl)
      | (simp only [List.mem_singleton] at h; rw [h]; rfl)
      | (rw [hbx] at h; simp [recordAndEnd] at h)
  | some s =>
    have hrun := createSessionUnit_createOk b pre hc
    have htail : ∀ ev ∈ (turnSteps b ⟨some s, false⟩ pre).filterMap Prod.fst,
        tameFor s ev = true := turnSteps_tame b rfl pre
    have hsl := sliceGuard hrun htail
    have hgb : (guardBoxes b none pre sch).sid = none
        ∨ (guardBoxes b none pre sch).sid = some s := by
      rcases guardBoxes_cases b pre sch with h | ⟨h, _⟩ | ⟨s2, h2, h3⟩
      · exact Or.inl h
      · rw [hc] at h; cases h
      · rw [hc] at h2
        cases h2
        exact Or.inr h3
    have hF : ∀ ev ∈ recordAndEnd b false (guardBoxes b none pre sch) content,
        tameFor s ev = true := recordAndEnd_tame hgb
    set run := createSessionUnit b false none pre with hrundef
    set n1 := min sch.atCall run.length with hn1def
    set nJ := joinSteps sch run.length with hnJdef
    set nG := guardSteps sch run.length with hnGdef
    have hordJ : n1 ≤ nJ := by
      rw [hn1def, hnJdef]; unfold joinSteps; omega
    have hordG : nJ ≤ nG := by
      rw [hnJdef, hnGdef]; unfold joinSteps guardSteps; omega
    simp only [turnsGuarded_append, accAfter_append, turnsGuarded_origStart,
      accAfter_origStart, turnsGuarded_origEnd, accAfter_origEnd,
      Bool.true_and, Bool.and_eq_true, and_true, true_and]
    rcases Nat.eq_zero_or_pos nG with hG | hG
    · have h1 : n1 = 0 := by omega
      have hJ : nJ = 0 := by omega
      rw [h1, hJ, hG, eventsBetween_self]
      have hbx0 : guardBoxes b none pre sch = ⟨none, false⟩ := by
        unfold guardBoxes
        simp only [Option.isSome_none]
        rw [← hrundef, ← hnGdef, hG]
        exact boxesAfter_zero _ _
      rw [hbx0]
      rw [show recordAndEnd b false (⟨none, false⟩ : Boxes) content = [] from rfl]
      exact ⟨⟨⟨⟨rfl, rfl⟩, rfl⟩, rfl⟩, (hsl 0 run.length _ (by omega)).1⟩
    · -- nG ≥ 1: s is available to the record thread and the final slice
      rcases Nat.eq_zero_or_pos n1 with h1 | h1
      · rcases Nat.eq_zero_or_pos nJ with hJ | hJ
        · rw [h1, hJ, eventsBetween_self]
          have gE := hsl 0 nG (accAfter [] (accAfter [] [])) (by omega)
          have hm3 : s ∈ accAfter (eventsBetween run 0 nG)
              (accAfter [] (accAfter [] [])) := gE.2.1 hG
          refine ⟨⟨⟨⟨rfl, rfl⟩, gE.1⟩, turnsGuarded_of_tame hF hm3⟩, ?_⟩
          rw [accAfter_of_tame hF]
          exact (hsl nG run.length _ (fun _ => hm3)).1
        · rw [h1, eventsBetween_self]
          have gC := hsl 0 nJ (accAfter [] []) (by omega)
          have hm2 : s ∈ accAfter (eventsBetween run 0 nJ) (accAfter [] []) :=
            gC.2.1 hJ
          have gE := hsl nJ nG _ (fun _ => hm2)
          have hm3 : s ∈ accAfter (eventsBetween run nJ nG)
              (accAfter (eventsBetween run 0 nJ) (accAfter [] [])) := gE.2.2 s hm2
          refine ⟨⟨⟨⟨rfl, gC.1⟩, gE.1⟩, turnsGuarded_of_tame hF hm3⟩, ?_⟩
          rw [accAfter_of_tame hF]
          exact (hsl nG run.length _ (fun _ => hm3)).1
      · have hJ : 1 ≤ nJ := by omega
        have gA := hsl 0 n1 [] (by omega)
        have hm1 : s ∈ accAfter (eventsBetween run 0 n1) [] := gA.2.1 h1
        have gC := hsl n1 nJ _ (fun _ => hm1)
        have hm2 : s ∈ accAfter (eventsBetween run n1 nJ)
            (accAfter (eventsBetween run 0 n1) []) := gC.2.2 s hm1
        have gE := hsl nJ nG _ (fun _ => hm2)
        have hm3 : s ∈ accAfter (eventsBetween run nJ nG)
            (accAfter (eventsBetween run n1 nJ)
              (accAfter (eventsBetween run 0 n1) [])) := gE.2.2 s hm2
        refine ⟨⟨⟨⟨gA.1, gC.1⟩, gE.1⟩, turnsGuarded_of_tame hF hm3⟩, ?_⟩
        rw [accAfter_of_tame hF]
        exact (hsl nG run.length _ (fun _ => hm3)).1

theorem recordAndEnd_okFalse {b : Backend} {im : Bool} {bx : Boxes} {ct : String}
    (h : bx.ok = false) : recordAndEnd b im bx ct = [] := by
  unfold recordAndEnd
  cases bx.sid with
  | none => rfl
  | some s => simp [h]

theorem failMark_managed (b : Backend) (S : String) (pre : List (Role × String))
    (sch : Sched) : failMarkEvents b (some S) pre sch = [] := by
  simp only [failMarkEvents, Option.isSome_some]
  split
  · rename_i s hmatch
    cases hmatch
  · rfl

theorem createRun_roles (b : Backend) (pre : List (Role × String)) :
    ∀ ev ∈ (createSessionUnit b false none pre).filterMap Prod.fst,
      ∀ r, turnRole ev = some r → r ∈ pre.map Prod.fst := by
  intro ev hm r hr
  cases hc : b.createResult with
  | none =>
    rw [createSessionUnit_createFail b pre hc] at hm
    simp only [List.filterMap_cons, List.filterMap_nil, List.mem_singleton] at hm
    rw [hm] at hr
    cases hr
  | some s =>
    rw [createSessionUnit_createOk b pre hc] at hm
    rw [List.filterMap_cons] at hm
    simp only [List.mem_cons] at hm
    rcases hm with h | h
    · rw [h] at hr; cases hr
    · exact turnSteps_roles b ⟨some s, false⟩ pre ev h r hr

theorem anthropicPreTurns_roles (msgs : List Msg) :
    ∀ r ∈ (anthropicPreTurns msgs).map Prod.fst, r = Role.TOOL ∨ r = Role.USER := by
  intro r hm
  unfold anthropicPreTurns at hm
  rw [List.map_append, List.mem_append] at hm
  rcases hm with h | h
  · left
    split at h <;> simp at h
    exact h
  · right
    rcases hLU : lastUserMsg msgs with _ | m <;> rw [hLU] at h <;> simp at h
    exact h

theorem anthropicPreTurns_countUser (msgs : List Msg) :
    (anthropicPreTurns msgs).countP (fun rc => rc.1 == Role.USER)
      = if (lastUserMsg msgs).isSome then 1 else 0 := by
  unfold anthropicPreTurns
  rw [List.countP_append]
  rcases hLU : lastUserMsg msgs with _ | m <;>
    split <;>
      simp [List.countP_cons, List.countP_nil]

theorem countP_syncErrorTrace (b : Backend) (existing : Option String)
    (pre : List (Role × String)) (sch : Sched) (p : Event → Bool) :
    (syncErrorTrace b existing pre sch).countP p
      = ((createSessionUnit b existing.isSome existing pre).filterMap Prod.fst).countP p
        + (failMarkEvents b existing pre sch).countP p
        + (if p .origStart then 1 else 0) := by
  simp only [syncErrorTrace]
  set run := createSessionUnit b existing.isSome existing pre with hrundef
  set n1 := min sch.atCall run.length with hn1def
  set nJ := joinSteps sch run.length with hnJdef
  have hordJ : n1 ≤ nJ := by rw [hn1def, hnJdef]; unfold joinSteps; omega
  have hordL : nJ ≤ run.length := by rw [hnJdef]; unfold joinSteps; omega
  have e1 : eventsBetween run 0 n1 ++ eventsBetween run n1 nJ
      = eventsBetween run 0 nJ := eventsBetween_append run (by omega) hordJ
  have e2 : eventsBetween run 0 nJ ++ eventsBetween run nJ run.length
      = eventsBetween run 0 run.length := eventsBetween_append run (by omega) hordL
  have c1 : (eventsBetween run 0 n1).countP p + (eventsBetween run n1 nJ).countP p
      = (eventsBetween run 0 nJ).countP p := by rw [← List.countP_append, e1]
  have c2 : (eventsBetween run 0 nJ).countP p
        + (eventsBetween run nJ run.length).countP p
      = (eventsBetween run 0 run.length).countP p := by rw [← List.countP_append, e2]
  have c3 : eventsBetween run 0 run.length = run.filterMap Prod.fst :=
    eventsBetween_full run
  rw [c3] at c2
  simp only [List.countP_append, List.countP_cons, List.countP_nil]
  omega

theorem countP_syncOkTrace (b : Backend) (existing : Option String)
    (pre : List (Role × String)) (content : String) (sch : Sched) (p : Event → Bool) :
    (syncOkTrace b existing pre content sch).countP p
      = ((createSessionUnit b existing.isSome existing pre).filterMap Prod.fst).countP p
        + (recordAndEnd b existing.isSome (guardBoxes b existing pre sch) content).countP p
        + (if p .origStart then 1 else 0) + (if p .origEnd then 1 else 0) := by
  simp only [syncOkTrace]
  set run := createSessionUnit b existing.isSome existing pre with hrundef
  set n1 := min sch.atCall run.length with hn1def
  set nJ := joinSteps sch run.length with hnJdef
  set nG := guardSteps sch run.length with hnGdef
  have hordJ : n1 ≤ nJ := by rw [hn1def, hnJdef]; unfold joinSteps; omega
  have hordG : nJ ≤ nG := by
    rw [hnJdef, hnGdef]; unfold joinSteps guardSteps; omega
  have hordL : nG ≤ run.length := by rw [hnGdef]; unfold guardSteps; omega
  have e1 : eventsBetween run 0 n1 ++ eventsBetween run n1 nJ
      = eventsBetween run 0 nJ := eventsBetween_append run (by omega) hordJ
  have e2 : eventsBetween run 0 nJ ++ eventsBetween run nJ nG
      = eventsBetween run 0 nG := eventsBetween_append run (by omega) hordG
  have e3 : eventsBetween run 0 nG ++ eventsBetween run nG run.length
      = eventsBetween run 0 run.length := eventsBetween_append run (by omega) hordL
  have c1 : (eventsBetween run 0 n1).countP p + (eventsBetween run n1 nJ).countP p
      = (eventsBetween run 0 nJ).countP p := by rw [← List.countP_append, e1]
  have c2 : (eventsBetween run 0 nJ).countP p + (eventsBetween run nJ nG).countP p
      = (eventsBetween run 0 nG).countP p := by rw [← List.countP_append, e2]
  have c3 : (eventsBetween run 0 nG).countP p
        + (eventsBetween run nG run.length).countP p
      = (eventsBetween run 0 run.length).countP p := by rw [← List.countP_append, e3]
  have c4 : eventsBetween run 0 run.length = run.filterMap Prod.fst :=
    eventsBetween_full run
  rw [c4] at c3
  simp only [List.countP_append, List.countP_cons, List.countP_nil]
  omega

theorem recordAndEnd_shape (b : Backend) (im : Bool) (bx : Boxes) (ct : String) :
    recordAndEnd b im bx ct = []
    ∨ ∃ s, bx.sid = some s ∧
      (recordAndEnd b im bx ct = [Event.addTurnFail s .ASSISTANT ct]
       ∨ (im = true ∧ recordAndEnd b im bx ct = [Event.addTurn s .ASSISTANT ct])
       ∨ (im = false ∧ recordAndEnd b im bx ct
            = [Event.addTurn s .ASSISTANT ct, endEvent b s .COMPLETED])) := by
  unfold recordAndEnd
  cases hs : bx.sid with
  | none => exact Or.inl rfl
  | some s =>
    by_cases hok : bx.ok = true
    · simp only [hok, if_true]
      by_cases hA : b.addTurnOk = true
      · cases him : im with
        | true =>
          right
          exact ⟨s, rfl, Or.inr (Or.inl ⟨rfl, by simp [hA]⟩)⟩
        | false =>
          right
          exact ⟨s, rfl, Or.inr (Or.inr ⟨rfl, by simp [hA]⟩)⟩
      · have hA2 : b.addTurnOk = false := by simpa using hA
        right
        exact ⟨s, rfl, Or.inl (by simp [hA2])⟩
    · have hok2 : bx.ok = false := by simpa using hok
      simp [hok2]

theorem failMark_shape (b : Backend) (existing : Option String)
    (pre : List (Role × String)) (sch : Sched) :
    failMarkEvents b existing pre sch = []
    ∨ ∃ s, failMarkEvents b existing pre sch = [endEvent b s .FAILED] := by
  simp only [failMarkEvents]
  split
  · rename_i s hs hmatch
    exact Or.inr ⟨s, rfl⟩
  · exact Or.inl rfl

theorem countEnd_endEvent (st st2 : SessionStatus) (b : Backend) (s : String) :
    countEnd st [endEvent b s st2] = if st2 = st then 1 else 0 := by
  unfold countEnd endEvent
  split <;> cases st2 <;> cases st <;> simp [List.countP_cons, List.countP_nil]

theorem countRole_endEvent (r : Role) (b : Backend) (s : String) (st : SessionStatus) :
    countRole r [endEvent b s st] = 0 := by
  unfold countRole endEvent
  split <;> simp [List.countP_cons, List.countP_nil, turnRole]

theorem countCreateAttempts_endEvent (b : Backend) (s : String) (st : SessionStatus) :
    countCreateAttempts [endEvent b s st] = 0 := by
  unfold countCreateAttempts endEvent
  split <;> simp [List.countP_cons, List.countP_nil]

theorem countRole_map_addTurn (r : Role) (s : String) (pre : List (Role × String)) :
    countRole r (pre.map (fun rc => Event.addTurn s rc.1 rc.2))
      = pre.countP (fun rc => rc.1 == r) := by
  induction pre with
  | nil => rfl
  | cons rc rest ih =>
    obtain ⟨r1, c1⟩ := rc
    simp only [List.map_cons, countRole, List.countP_cons] at ih ⊢
    rw [ih]
    rfl

theorem createRun_events_allOk (b : Backend) {s : String} (hc : b.createResult = some s)
    (hA : b.addTurnOk = true) (pre : List (Role × String)) :
    (createSessionUnit b false none pre).filterMap Prod.fst
      = Event.createSession s :: pre.map (fun rc => Event.addTurn s rc.1 rc.2) := by
  rw [createSessionUnit_createOk b pre hc, turnSteps_allOk b rfl hA pre]
  rw [List.filterMap_cons]
  simp only [List.filterMap_append, List.filterMap_cons, List.filterMap_nil,
    List.append_nil]
  congr 1
  induction pre with
  | nil => rfl
  | cons rc rest ih =>
    obtain ⟨r1, c1⟩ := rc
    simp only [List.map_cons, List.filterMap_cons]
    rw [ih]

/-! ## Demonstration constants used by witnesses and counterexamples -/

/-- A backend on which every call succeeds; sessions get id `S1`. -/
def demoBackend : Backend := ⟨some "S1", true, true⟩

/-- A backend on which every call raises. -/
def failingBackend : Backend := ⟨none, false, false⟩

/-- A single plain user message. -/
def demoMsgs : List Msg := [⟨"user", MContent.str "Hello"⟩]

theorem countCreated_endEvent (b : Backend) (s : String) (st : SessionStatus) :
    countCreated [endEvent b s st] = 0 := by
  unfold countCreated endEvent
  split <;> simp [List.countP_cons, List.countP_nil]

theorem countRole_failMark (r : Role) (b : Backend) (existing : Option String)
    (pre : List (Role × String)) (sch : Sched) :
    countRole r (failMarkEvents b existing pre sch) = 0 := by
  rcases failMark_shape b existing pre sch with h | ⟨s, h⟩ <;> rw [h]
  · rfl
  · exact countRole_endEvent r b s .FAILED

theorem countCreateAttempts_failMark (b : Backend) (existing : Option String)
    (pre : List (Role × String)) (sch : Sched) :
    countCreateAttempts (failMarkEvents b existing pre sch) = 0 := by
  rcases failMark_shape b existing pre sch with h | ⟨s, h⟩ <;> rw [h]
  · rfl
  · exact countCreateAttempts_endEvent b s .FAILED

theorem countCreated_failMark (b : Backend) (existing : Option String)
    (pre : List (Role × String)) (sch : Sched) :
    countCreated (failMarkEvents b existing pre sch) = 0 := by
  rcases failMark_shape b existing pre sch with h | ⟨s, h⟩ <;> rw [h]
  · rfl
  · exact countCreated_endEvent b s .FAILED

theorem countEnd_failMark_le (st : SessionStatus) (b : Backend) (existing : Option String)
    (pre : List (Role × String)) (sch : Sched) :
    countEnd st (failMarkEvents b existing pre sch) ≤ 1 := by
  rcases failMark_shape b existing pre sch with h | ⟨s, h⟩ <;> rw [h]
  · exact Nat.zero_le 1
  · rw [countEnd_endEvent]
    split <;> omega

theorem countEnd_failMark_completed (b : Backend) (existing : Option String)
    (pre : List (Role × String)) (sch : Sched) :
    countEnd .COMPLETED (failMarkEvents b existing pre sch) = 0 := by
  rcases failMark_shape b existing pre sch with h | ⟨s, h⟩ <;> rw [h]
  · rfl
  · rw [countEnd_endEvent]
    simp

theorem countCreated_recordAndEnd (b : Backend) (im : Bool) (bx : Boxes) (ct : String) :
    countCreated (recordAndEnd b im bx ct) = 0 := by
  rcases recordAndEnd_shape b im bx ct with h | ⟨s, _, h | ⟨_, h⟩ | ⟨_, h⟩⟩ <;> rw [h]
  · rfl
  · rfl
  · rfl
  · show countCreated ([Event.addTurn s .ASSISTANT ct] ++ [endEvent b s .COMPLETED]) = 0
    unfold countCreated
    rw [List.countP_append]
    have := countCreated_endEvent b s .COMPLETED
    unfold countCreated at this
    simp [List.countP_cons, List.countP_nil, this]

theorem countCreateAttempts_recordAndEnd (b : Backend) (im : Bool) (bx : Boxes)
    (ct : String) : countCreateAttempts (recordAndEnd b im bx ct) = 0 := by
  rcases recordAndEnd_shape b im bx ct with h | ⟨s, _, h | ⟨_, h⟩ | ⟨_, h⟩⟩ <;> rw [h]
  · rfl
  · rfl
  · rfl
  · show countCreateAttempts ([Event.addTurn s .ASSISTANT ct] ++ [endEvent b s .COMPLETED]) = 0
    unfold countCreateAttempts
    rw [List.countP_append]
    have := countCreateAttempts_endEvent b s .COMPLETED
    unfold countCreateAttempts at this
    simp [List.countP_cons, List.countP_nil, this]

theorem countEnd_recordAndEnd_managed (st : SessionStatus) (b : Backend) (bx : Boxes)
    (ct : String) : countEnd st (recordAndEnd b true bx ct) = 0 := by
  rcases recordAndEnd_shape b true bx ct with h | ⟨s, _, h | ⟨_, h⟩ | ⟨him, _⟩⟩
  · rw [h]; rfl
  · rw [h]; rfl
  · rw [h]; rfl
  · cases him

theorem turnSteps_mem_shape (b : Backend) (bx : Boxes) (pre : List (Role × String)) :
    ∀ ev ∈ (turnSteps b bx pre).filterMap Prod.fst,
      ∃ s2 r c, ev = Event.addTurn s2 r c ∨ ev = Event.addTurnFail s2 r c := by
  induction pre with
  | nil => simp [turnSteps]
  | cons rc rest ih =>
    obtain ⟨r0, c0⟩ := rc
    intro ev hm
    cases hb : bx.sid with
    | none => simp [turnSteps, hb] at hm
    | some s =>
      by_cases hA : b.addTurnOk = true
      · simp only [turnSteps, hb, hA, if_true] at hm
        rw [List.filterMap_cons] at hm
        simp only [List.mem_cons] at hm
        rcases hm with h | h
        · exact ⟨s, r0, c0, Or.inl h⟩
        · exact ih ev h
      · have hA2 : b.addTurnOk = false := by simpa using hA
        simp only [turnSteps, hb, hA2, Bool.false_eq_true, if_false] at hm
        rw [List.filterMap_cons] at hm
        simp only [List.filterMap_nil, List.mem_singleton] at hm
        exact ⟨s, r0, c0, Or.inr hm⟩

theorem asyncTurnEvents_mem (b : Backend) (s : String) (pre : List (Role × String)) :
    ∀ ev ∈ asyncTurnEvents b s pre,
      ∃ r c, ev = Event.addTurn s r c ∨ ev = Event.addTurnFail s r c := by
  induction pre with
  | nil => simp [asyncTurnEvents]
  | cons rc rest ih =>
    obtain ⟨r0, c0⟩ := rc
    intro ev hm
    by_cases hA : b.addTurnOk = true
    · simp only [asyncTurnEvents, hA, if_true, List.mem_cons] at hm
      rcases hm with h | h
      · exact ⟨r0, c0, Or.inl h⟩
      · exact ih ev h
    · have hA2 : b.addTurnOk = false := by simpa using hA
      simp only [asyncTurnEvents, hA2, Bool.false_eq_true, if_false,
        List.mem_singleton] at hm
      exact ⟨r0, c0, Or.inr hm⟩

theorem mem_syncErrorTrace {b : Backend} {existing : Option String}
    {pre : List (Role × String)} {sch : Sched} {ev : Event}
    (hm : ev ∈ syncErrorTrace b existing pre sch) :
    ev ∈ (createSessionUnit b existing.isSome existing pre).filterMap Prod.fst
    ∨ ev ∈ failMarkEvents b existing pre sch
    ∨ ev = .origStart := by
  simp only [syncErrorTrace, List.mem_append] at hm
  rcases hm with (((h | h) | h) | h) | h
  · exact Or.inl (mem_eventsBetween h)
  · simp only [List.mem_singleton] at h
    exact Or.inr (Or.inr h)
  · exact Or.inl (mem_eventsBetween h)
  · exact Or.inr (Or.inl h)
  · exact Or.inl (mem_eventsBetween h)

theorem mem_syncOkTrace {b : Backend} {existing : Option String}
    {pre : List (Role × String)} {content : String} {sch : Sched} {ev : Event}
    (hm : ev ∈ syncOkTrace b existing pre content sch) :
    ev ∈ (createSessionUnit b existing.isSome existing pre).filterMap Prod.fst
    ∨ ev ∈ recordAndEnd b existing.isSome (guardBoxes b existing pre sch) content
    ∨ ev = .origStart ∨ ev = .origEnd := by
  simp only [syncOkTrace, List.mem_append] at hm
  rcases hm with (((((h | h) | h) | h) | h) | h) | h
  · exact Or.inl (mem_eventsBetween h)
  · simp only [List.mem_singleton] at h
    exact Or.inr (Or.inr (Or.inl h))
  · exact Or.inl (mem_eventsBetween h)
  · simp only [List.mem_singleton] at h
    exact Or.inr (Or.inr (Or.inr h))
  · exact Or.inl (mem_eventsBetween h)
  · exact Or.inr (Or.inl h)
  · exact Or.inl (mem_eventsBetween h)

theorem guardBoxes_createFail (b : Backend) (pre : List (Role × String)) (sch : Sched)
    (hc : b.createResult = none) : guardBoxes b none pre sch = ⟨none, false⟩ := by
  unfold guardBoxes
  simp only [Option.isSome_none]
  apply boxesAfter_const
  rw [createSessionUnit_createFail b pre hc]
  simp

theorem guardBoxes_managed (b : Backend) (S : String) (pre : List (Role × String))
    (sch : Sched) : guardBoxes b (some S) pre sch = ⟨some S, true⟩ := by
  unfold guardBoxes
  simp only [Option.isSome_some]
  apply boxesAfter_const
  rw [createSessionUnit_managed]
  intro st hm
  rcases turnSteps_boxes b ⟨some S, true⟩ pre st hm with h | h
  · exact h
  · rw [h]

theorem anthropicPreTurns_countAssistant (msgs : List Msg) :
    (anthropicPreTurns msgs).countP (fun rc => rc.1 == Role.ASSISTANT) = 0 := by
  unfold anthropicPreTurns
  rw [List.countP_append]
  rcases hLU : lastUserMsg msgs with _ | m <;>
    split <;>
      simp [List.countP_cons, List.countP_nil]

/-! ## Claim theorems -/

/-- C1: For every supported call shape (synchronous create, asynchronous
create, create with `stream=True`, scoped stream object), the value the
instrumented entry point returns to the caller is identical to the value the
original unwrapped call returns — for the `stream=True` shape the sequence of
chunks handed back has exactly the contents of the original iterator — for
every backend behaviour, in particular when every backend write raises, and
under every interleaving of the recording thread. -/
theorem claim1_passthrough (ε ρ : Type) (b : Backend) (existing : Option String)
    (msgs : List Msg) (pre : List (Role × String)) (orig : Except ε ρ)
    (ext : ρ → String) (sch : Sched) (origChunks : Except ε (List AChunk))
    (chunks : List AChunk) :
    (instrumentedCreate b existing pre orig ext sch).1 = orig
    ∧ (instrumentedCreateAsync b existing pre orig ext).1 = orig
    ∧ (instrumentedCreateStream b existing msgs origChunks).1 = origChunks
    ∧ wrapperIterate chunks = chunks := by
  refine ⟨?_, ?_, ?_, rfl⟩
  · cases orig <;> rfl
  · cases orig <;> rfl
  · cases origChunks with
    | error e => rfl
    | ok cs => cases existing <;> rfl

/-- C7: For every prior value of the active-session handle, entering a
session scope installs the newly created session id (when creation
succeeds), and exiting the scope — whether the body returns normally or
raises — restores the handle exactly to the prior value. -/
theorem claim7_handle_roundtrip (ε α : Type) (b : Backend) (prior : Option String)
    (body : Option String → Option String → Except ε α) :
    (sessionRun b prior body).finalHandle = prior
    ∧ (∀ s, b.createResult = some s → (sessionRun b prior body).bodyHandle = some s) := by
  rcases hc : b.createResult with _ | s
  · refine ⟨by simp [sessionRun, hc], fun s2 h => ?_⟩
    cases h
  · refine ⟨by simp [sessionRun, hc], fun s2 h => ?_⟩
    injection h with h2
    rw [← h2]
    simp [sessionRun, hc]

/-- Witness for C7 at a concrete backend, prior handle and body. -/
theorem claim7_witness :
    (sessionRun demoBackend (some "P")
        (fun _ _ => (Except.ok 0 : Except Nat Nat))).finalHandle = some "P"
    ∧ (sessionRun demoBackend (some "P")
        (fun _ _ => (Except.ok 0 : Except Nat Nat))).bodyHandle = some "S1" :=
  ⟨(claim7_handle_roundtrip Nat Nat demoBackend (some "P") _).1,
   (claim7_handle_roundtrip Nat Nat demoBackend (some "P") _).2 "S1" rfl⟩

/-- C9: If the body of the `session` scope raises, the session is still
ended exactly once — with status COMPLETED, not FAILED — after the handle
has been restored (the trace shows the restore strictly before the end
attempt), and the body's exception propagates to the caller. -/
theorem claim9_body_error_completed (ε α : Type) (b : Backend) (prior : Option String)
    (s : String) (e : ε) (hc : b.createResult = some s) :
    (sessionRun b prior (fun _ _ => (Except.error e : Except ε α))).result
        = Except.error e
    ∧ countEnd .COMPLETED
        (sessionRun b prior (fun _ _ => (Except.error e : Except ε α))).trace = 1
    ∧ countEnd .FAILED
        (sessionRun b prior (fun _ _ => (Except.error e : Except ε α))).trace = 0
    ∧ (sessionRun b prior (fun _ _ => (Except.error e : Except ε α))).trace
        = [Event.createSession s, Event.restoreHandle, endEvent b s .COMPLETED] := by
  simp only [sessionRun, hc]
  refine ⟨by trivial, ?_, ?_, by trivial⟩
  · unfold countEnd endEvent
    split <;> simp [List.countP_cons, List.countP_nil]
  · unfold countEnd endEvent
    split <;> simp [List.countP_cons, List.countP_nil]

/-- Witness for C9 at a concrete backend and a concrete body exception. -/
theorem claim9_witness :
    (sessionRun demoBackend none
        (fun _ _ => (Except.error 7 : Except Nat Nat))).result = Except.error 7
    ∧ countEnd .COMPLETED (sessionRun demoBackend none
        (fun _ _ => (Except.error 7 : Except Nat Nat))).trace = 1 :=
  ⟨(claim9_body_error_completed Nat Nat demoBackend none "S1" 7 rfl).1,
   (claim9_body_error_completed Nat Nat demoBackend none "S1" 7 rfl).2.1⟩

theorem createRun_countCreated (b : Backend) {s : String} (hc : b.createResult = some s)
    (pre : List (Role × String)) :
    countCreated ((createSessionUnit b false none pre).filterMap Prod.fst) = 1 := by
  rw [createSessionUnit_createOk b pre hc]
  rw [List.filterMap_cons]
  unfold countCreated
  have h0 : ((turnSteps b ⟨some s, false⟩ pre).filterMap Prod.fst).countP
      (fun ev => match ev with | Event.createSession _ => true | _ => false) = 0 := by
    rw [List.countP_eq_zero]
    intro ev hm
    obtain ⟨s2, r, c, h | h⟩ := turnSteps_mem_shape b _ pre ev hm <;> subst h <;> simp
  simp [List.countP_cons, h0]

theorem countCreated_unmanaged (ε ρ : Type) (b : Backend) {s : String}
    (hc : b.createResult = some s) (pre : List (Role × String)) (orig : Except ε ρ)
    (ext : ρ → String) (sch : Sched) :
    countCreated (instrumentedCreate b none pre orig ext sch).2 = 1 := by
  have h1 := createRun_countCreated b hc pre
  unfold countCreated at h1
  cases orig with
  | error e =>
    show countCreated (syncErrorTrace b none pre sch) = 1
    unfold countCreated
    rw [countP_syncErrorTrace]
    have h2 := countCreated_failMark b none pre sch
    unfold countCreated at h2
    simp only [Option.isSome_none]
    rw [h1, h2]
    simp
  | ok r =>
    show countCreated (syncOkTrace b none pre (ext r) sch) = 1
    unfold countCreated
    rw [countP_syncOkTrace]
    have h2 := countCreated_recordAndEnd b (Option.isSome (none : Option String))
      (guardBoxes b none pre sch) (ext r)
    unfold countCreated at h2
    simp only [Option.isSome_none] at h2 ⊢
    rw [h1, h2]
    simp

/-- C10 (amended): if `create_session` fails inside `session`, the context
manager yields `none`, leaves the active-session handle at its prior value
(it installs nothing), and issues no `end_session` on exit; in particular
when no enclosing scope is active (prior handle `none`), every instrumented
call inside the block behaves as unmanaged and creates its own session. -/
theorem claim10_create_fail_scope (ε α : Type) (b : Backend) (prior : Option String)
    (body : Option String → Option String → Except ε α) (hc : b.createResult = none) :
    (sessionRun b prior body).yielded = none
    ∧ (sessionRun b prior body).bodyHandle = prior
    ∧ (sessionRun b prior body).trace = [Event.createSessionFail]
    ∧ countEnd .COMPLETED (sessionRun b prior body).trace = 0
    ∧ countEnd .FAILED (sessionRun b prior body).trace = 0
    ∧ (prior = none → ∀ (b2 : Backend) (s : String) (pre : List (Role × String))
        (sch : Sched) (orig : Except ε α) (ext : α → String),
        b2.createResult = some s →
        countCreated (instrumentedCreate b2 (sessionRun b prior body).bodyHandle
            pre orig ext sch).2 = 1) := by
  simp only [sessionRun, hc]
  refine ⟨by trivial, by trivial, by trivial, by trivial, by trivial, ?_⟩
  intro hp b2 s pre sch orig ext hc2
  subst hp
  exact countCreated_unmanaged ε α b2 hc2 pre orig ext sch

/-- Witness for C10 (amended) at a failing backend and a no-scope prior. -/
theorem claim10_witness :
    (sessionRun failingBackend none
        (fun _ _ => (Except.ok 0 : Except Nat Nat))).yielded = none
    ∧ countCreated (instrumentedCreate demoBackend
        (sessionRun failingBackend none
          (fun _ _ => (Except.ok 0 : Except Nat Nat))).bodyHandle
        (anthropicPreTurns demoMsgs) (Except.ok 0 : Except Nat Nat) (fun _ => "Hi")
        ⟨9, 9, 9⟩).2 = 1 :=
  ⟨(claim10_create_fail_scope Nat Nat failingBackend none _ rfl).1,
   (claim10_create_fail_scope Nat Nat failingBackend none _ rfl).2.2.2.2.2 rfl
      demoBackend "S1" (anthropicPreTurns demoMsgs) ⟨9, 9, 9⟩ (Except.ok 0)
      (fun _ => "Hi") rfl⟩

/-- C10 counterexample: with an enclosing scope holding session `S1`, an
inner `session` whose create fails yields `none` but leaves the handle at
`S1`, and an instrumented call inside the inner block is *managed* — it
creates no session of its own (zero `create_session` attempts) and writes
its turns to `S1` — contradicting the claim that every instrumented call
inside the block behaves as unmanaged and creates its own session. -/
theorem claim10_counterexample :
    (sessionRun failingBackend
        (sessionRun demoBackend none
          (fun _ _ => (Except.ok 0 : Except Nat Nat))).bodyHandle
        (fun _ _ => (Except.ok 0 : Except Nat Nat))).yielded = none
    ∧ (sessionRun failingBackend
        (sessionRun demoBackend none
          (fun _ _ => (Except.ok 0 : Except Nat Nat))).bodyHandle
        (fun _ _ => (Except.ok 0 : Except Nat Nat))).bodyHandle = some "S1"
    ∧ countCreateAttempts (instrumentedCreate demoBackend
        (sessionRun failingBackend
          (sessionRun demoBackend none
            (fun _ _ => (Except.ok 0 : Except Nat Nat))).bodyHandle
          (fun _ _ => (Except.ok 0 : Except Nat Nat))).bodyHandle
        (anthropicPreTurns demoMsgs) (Except.ok 0 : Except Nat Nat)
        (fun _ => "Hi") ⟨9, 9, 9⟩).2 = 0
    ∧ turnsOnlyTo "S1" (instrumentedCreate demoBackend
        (sessionRun failingBackend
          (sessionRun demoBackend none
            (fun _ _ => (Except.ok 0 : Except Nat Nat))).bodyHandle
          (fun _ _ => (Except.ok 0 : Except Nat Nat))).bodyHandle
        (anthropicPreTurns demoMsgs) (Except.ok 0 : Except Nat Nat)
        (fun _ => "Hi") ⟨9, 9, 9⟩).2 = true := by
  decide

/-! ## Eval-run polling lemmas -/

theorem waitLoop_ok_spec (statusAt : Nat → String) (p dl : Nat) :
    ∀ fuel t0 s t, waitLoop statusAt p dl t0 fuel = .ok (s, t) →
      terminalStatus s = true ∧ statusAt t = s ∧ t < dl ∧ t0 ≤ t
      ∧ ∀ k, t0 + k * p < t → terminalStatus (statusAt (t0 + k * p)) = false := by
  intro fuel
  induction fuel with
  | zero => intro t0 s t h; cases h
  | succ n ih =>
    intro t0 s t h
    by_cases hlt : t0 < dl
    · by_cases hterm : terminalStatus (statusAt t0) = true
      · have heq : waitLoop statusAt p dl t0 (n + 1) = .ok (statusAt t0, t0) := by
          simp [waitLoop, hlt, hterm]
        rw [heq] at h
        injection h with h2
        injection h2 with h3 h4
        subst h4
        refine ⟨h3 ▸ hterm, h3, hlt, Nat.le_refl t0, fun k hk => ?_⟩
        omega
      · have hterm2 : terminalStatus (statusAt t0) = false := by simpa using hterm
        have heq : waitLoop statusAt p dl t0 (n + 1)
            = waitLoop statusAt p dl (t0 + p) n := by
          simp [waitLoop, hlt, hterm2]
        rw [heq] at h
        obtain ⟨h1, h2, h3, h4, h5⟩ := ih (t0 + p) s t h
        refine ⟨h1, h2, h3, by omega, fun k hk => ?_⟩
        cases k with
        | zero => simpa using hterm2
        | succ j =>
          have heq2 : t0 + (j + 1) * p = t0 + p + j * p := by ring
          rw [heq2] at hk ⊢
          exact h5 j hk
    · have heq : waitLoop statusAt p dl t0 (n + 1) = .error t0 := by
        simp [waitLoop, hlt]
      rw [heq] at h
      cases h

theorem waitLoop_timeout (statusAt : Nat → String) (p dl : Nat)
    (hnt : ∀ t, terminalStatus (statusAt t) = false) :
    ∀ fuel t0, dl ≤ t0 + fuel * p → t0 < dl + p →
      ∃ T, waitLoop statusAt p dl t0 fuel = .error T ∧ dl ≤ T ∧ T < dl + p := by
  intro fuel
  induction fuel with
  | zero =>
    intro t0 h1 h2
    simp only [Nat.zero_mul, Nat.add_zero] at h1
    exact ⟨t0, rfl, h1, h2⟩
  | succ n ih =>
    intro t0 h1 h2
    by_cases hlt : t0 < dl
    · have heq : waitLoop statusAt p dl t0 (n + 1)
          = waitLoop statusAt p dl (t0 + p) n := by
        simp [waitLoop, hlt, hnt t0]
      rw [heq]
      apply ih (t0 + p)
      · have heq2 : t0 + p + n * p = t0 + (n + 1) * p := by ring
        rw [heq2]
        exact h1
      · omega
    · have heq : waitLoop statusAt p dl t0 (n + 1) = .error t0 := by
        simp [waitLoop, hlt]
      exact ⟨t0, heq, by omega, h2⟩

/-- C8: `wait_for_completion` returns the polled run as soon as its status is
COMPLETED or FAILED (every earlier poll was non-terminal and the return
happens before the deadline), and against a run that never reaches a
terminal status it raises the poll-timeout error at a time `T` with
`deadline ≤ T < deadline + pollInterval` — never looping past the
deadline. -/
theorem claim8_wait_for_completion (statusAt : Nat → String) (p dl : Nat)
    (hp : 0 < p) :
    (∀ s t, wait_for_completion statusAt p dl = .ok (s, t) →
        (s = "COMPLETED" ∨ s = "FAILED") ∧ statusAt t = s ∧ t < dl
        ∧ ∀ k, k * p < t → terminalStatus (statusAt (k * p)) = false)
    ∧ ((∀ t, terminalStatus (statusAt t) = false) →
        ∃ T, wait_for_completion statusAt p dl = .error T ∧ dl ≤ T ∧ T < dl + p) := by
  constructor
  · intro s t h
    obtain ⟨h1, h2, h3, _, h5⟩ := waitLoop_ok_spec statusAt p dl (dl + 1) 0 s t h
    refine ⟨?_, h2, h3, fun k hk => ?_⟩
    · unfold terminalStatus at h1
      rcases Bool.or_eq_true_iff.mp h1 with h | h
      · exact Or.inl (by simpa using h)
      · exact Or.inr (by simpa using h)
    · have := h5 k (by simpa using hk)
      simpa using this
  · intro hnt
    apply waitLoop_timeout statusAt p dl hnt (dl + 1) 0
    · have hmul : dl + 1 ≤ (dl + 1) * p := Nat.le_mul_of_pos_right (dl + 1) hp
      omega
    · omega

/-- Witness for C8: a run that is never terminal, poll interval 1,
timeout 5 — the error is raised exactly at the deadline. -/
theorem claim8_witness :
    (∃ T, wait_for_completion (fun _ => "RUNNING") 1 5 = .error T ∧ 5 ≤ T ∧ T < 5 + 1)
    ∧ wait_for_completion (fun _ => "RUNNING") 1 5 = .error 5 :=
  ⟨(claim8_wait_for_completion (fun _ => "RUNNING") 1 5 (by decide)).2
      (fun _ => rfl),
   by rfl⟩

/-- C6 (amended): `instrument` raises the unsupported-client error only for
unsupported client types, but it can also raise synchronously for a
*supported* client: when the agent id is not a UUID it calls
`get_or_create_agent` (before even inspecting the client type), and a
backend failure there propagates.  When the agent id is a UUID or the
backend resolution succeeds, `instrument` returns without raising for every
supported client; and every failure occurring after instrumentation is
absorbed by the wrappers — the instrumented call returns the original
outcome for every backend behaviour. -/
theorem claim6_instrument_raises (g : Option String) (a : String) (c : ClientTy) :
    (instrument g a c = Except.error .unsupportedClient →
        detectProvider (clientIdentifier c) = none)
    ∧ (instrument g a c = Except.error .backendError →
        isUUIDMatch a = false ∧ g = none)
    ∧ ((isUUIDMatch a = true ∨ g.isSome) →
        ∀ p, detectProvider (clientIdentifier c) = some p →
        ∃ rid isAsync, instrument g a c = Except.ok (rid, p, isAsync))
    ∧ (∀ (ε ρ : Type) (b : Backend) (existing : Option String)
        (pre : List (Role × String)) (orig : Except ε ρ) (ext : ρ → String)
        (sch : Sched), (instrumentedCreate b existing pre orig ext sch).1 = orig) := by
  refine ⟨?_, ?_, ?_, ?_⟩
  · intro h
    simp only [instrument] at h
    split at h
    · simp at h
    · split at h
      · simp at h
      · assumption
  · intro h
    simp only [instrument] at h
    split at h
    · rename_i hres
      by_cases hu : isUUIDMatch a = true
      · rw [if_pos hu] at hres
        cases hres
      · have hu2 : isUUIDMatch a = false := by simpa using hu
        rw [if_neg (by simp [hu2])] at hres
        exact ⟨hu2, hres⟩
    · split at h <;> simp at h
  · intro hres p hp
    by_cases hu : isUUIDMatch a = true
    · refine ⟨a, strContains (lowerString c.qualname) "async", ?_⟩
      simp [instrument, hu, hp]
    · have hu2 : isUUIDMatch a = false := by simpa using hu
      rcases hres with h | h
      · rw [hu2] at h; cases h
      · obtain ⟨gid, hg⟩ := Option.isSome_iff_exists.mp h
        refine ⟨gid, strContains (lowerString c.qualname) "async", ?_⟩
        simp [instrument, hu2, hg, hp]
  · intro ε ρ b existing pre orig ext sch
    cases orig <;> rfl

/-- Witness for C6 (amended): a UUID agent id with a supported Anthropic
client — `instrument` succeeds without touching the backend. -/
theorem claim6_witness :
    ∃ rid isAsync, instrument none "123e4567-e89b-42d3-a456-426614174000"
        ⟨"anthropic", "Anthropic"⟩ = Except.ok (rid, Provider.anthropic, isAsync) :=
  (claim6_instrument_raises none "123e4567-e89b-42d3-a456-426614174000"
      ⟨"anthropic", "Anthropic"⟩).2.2.1 (Or.inl (by decide)) Provider.anthropic
    (by decide)

/-- C6 counterexample: a supported Anthropic client with a human-readable
(non-UUID) agent name and a backend whose `get_or_create_agent` raises:
`instrument` itself raises a backend error — refuting the claim that for any
supported client `instrument` never raises. -/
theorem claim6_counterexample :
    detectProvider (clientIdentifier ⟨"anthropic", "Anthropic"⟩)
        = some Provider.anthropic
    ∧ isUUIDMatch "My Support Bot" = false
    ∧ instrument none "My Support Bot" ⟨"anthropic", "Anthropic"⟩
        = Except.error InstrumentError.backendError :=
  ⟨by decide, by decide, by rfl⟩

/-- C5 (amended): in the synchronous shapes the recording unit is spawned
alongside the original call — there is an execution in which the original
call starts before any recorder event — and under every interleaving the
call's outcome is the original one (no recorder operation gates it); in the
asynchronous shape, by contrast, the session-create write is awaited and
completes before the original call is invoked. -/
theorem claim5_recorder_scheduling (ε ρ : Type) (b : Backend)
    (existing : Option String) (pre : List (Role × String)) (orig : Except ε ρ)
    (ext : ρ → String) :
    (instrumentedCreate b existing pre orig ext ⟨0, 0, 0⟩).2.head?
        = some Event.origStart
    ∧ (∀ sch, (instrumentedCreate b existing pre orig ext sch).1 = orig)
    ∧ (∀ s, b.createResult = some s →
        (instrumentedCreateAsync b none pre orig ext).2.head?
          = some (Event.createSession s)) := by
  refine ⟨?_, fun sch => by cases orig <;> rfl, ?_⟩
  · cases orig with
    | error e =>
      show (syncErrorTrace b existing pre ⟨0, 0, 0⟩).head? = some Event.origStart
      simp [syncErrorTrace, eventsBetween, Nat.zero_min]
    | ok r =>
      show (syncOkTrace b existing pre (ext r) ⟨0, 0, 0⟩).head? = some Event.origStart
      simp [syncOkTrace, eventsBetween, Nat.zero_min]
  · intro s hc
    cases orig <;> simp [instrumentedCreateAsync, asyncPreEvents, hc]

/-- Witness for C5 (amended) at a concrete backend and message list. -/
theorem claim5_witness :
    (instrumentedCreateAsync demoBackend none (anthropicPreTurns demoMsgs)
        (Except.ok 0 : Except Nat Nat) (fun _ => "Hi")).2.head?
      = some (Event.createSession "S1") :=
  (claim5_recorder_scheduling Nat Nat demoBackend none (anthropicPreTurns demoMsgs)
      (Except.ok 0) (fun _ => "Hi")).2.2 "S1" rfl

/-- C5 counterexample: the async wrapper's full trace at a concrete input —
the awaited `create_session` and USER-turn writes occupy positions 0 and 1,
strictly before the original call start at position 2.  The async model has
no scheduling freedom (the pre-writes are awaited in program order), so in
*every* execution of this shape the recording unit runs before, not in
parallel with, the original call invocation, and its pre-writes delay the
call. -/
theorem claim5_counterexample :
    (instrumentedCreateAsync demoBackend none (anthropicPreTurns demoMsgs)
        (Except.ok 0 : Except Nat Nat) (fun _ => "Hi")).2
      = [Event.createSession "S1", Event.addTurn "S1" .USER "Hello",
         Event.origStart, Event.origEnd,
         Event.addTurn "S1" .ASSISTANT "Hi",
         Event.endSession "S1" .COMPLETED] := by
  decide

theorem streamTail_tame (b : Backend) (s text : String) :
    ∀ ev ∈ streamTail b s text, tameFor s ev = true := by
  intro ev hm
  by_cases hA : b.addTurnOk = true
  · simp only [streamTail, hA, if_true, List.mem_cons, List.mem_singleton,
      List.not_mem_nil, or_false] at hm
    rcases hm with h | h
    · rw [h]; simp [tameFor]
    · rw [h]; exact tameFor_endEvent _ _ _ _
  · have hA2 : b.addTurnOk = false := by simpa using hA
    simp only [streamTail, hA2, Bool.false_eq_true, if_false,
      List.mem_singleton] at hm
    rw [hm]; simp [tameFor]

theorem guarded_origPrefix_create (s : String) (L : List Event)
    (hL : ∀ ev ∈ L, tameFor s ev = true) :
    turnsGuarded (Event.origStart :: Event.origEnd :: Event.createSession s :: L)
      [] = true := by
  show turnsGuarded L [s] = true
  exact turnsGuarded_of_tame hL (by simp)

/-- Under every backend behaviour, the `stream=True` path of an unmanaged
call never writes a turn to a session whose creation was not observed
earlier in its trace (its single recording thread creates the session first
and aborts on failure). -/
theorem streamTrace_guarded {ε : Type} (b : Backend) (msgs : List Msg)
    (orig : Except ε (List AChunk)) :
    turnsGuarded (instrumentedCreateStream b none msgs orig).2 [] = true := by
  cases orig with
  | error e => rfl
  | ok chunks =>
    simp only [instrumentedCreateStream]
    cases hc : b.createResult with
    | none => rfl
    | some s =>
      rcases hLU : lastUserMsg msgs with _ | m
      · exact guarded_origPrefix_create s _ (streamTail_tame b s _)
      · refine guarded_origPrefix_create s
          (if b.addTurnOk = true then
            Event.addTurn s Role.USER (contentToString m.content)
              :: streamTail b s (streamText chunks)
          else [Event.addTurnFail s Role.USER (contentToString m.content)]) ?_
        intro ev hm
        by_cases hA : b.addTurnOk = true
        · rw [if_pos hA] at hm
          rcases List.mem_cons.mp hm with h | h
          · rw [h]; simp [tameFor]
          · exact streamTail_tame b s _ ev h
        · rw [if_neg hA] at hm
          simp only [List.mem_singleton] at hm
          rw [hm]; simp [tameFor]

/-- When session creation fails, the `stream=True` recording thread aborts
before any turn: no ASSISTANT turn is ever attempted. -/
theorem streamTrace_noAssistant_createFail {ε : Type} (b : Backend) (msgs : List Msg)
    (orig : Except ε (List AChunk)) (hc : b.createResult = none) :
    countRole .ASSISTANT (instrumentedCreateStream b none msgs orig).2 = 0 := by
  cases orig with
  | error e => rfl
  | ok chunks =>
    simp only [instrumentedCreateStream, hc]
    rfl

theorem wrapperCreateUnit_shape (b : Backend) (msgs : List Msg) {s : String}
    (hc : b.createResult = some s) :
    ∃ tail, wrapperCreateUnit b false none msgs
        = (some (Event.createSession s), (⟨some s, false⟩ : Boxes)) :: tail
      ∧ (∀ ev ∈ tail.filterMap Prod.fst, tameFor s ev = true)
      ∧ (∀ ev ∈ tail.filterMap Prod.fst, turnRole ev ≠ some Role.ASSISTANT)
      ∧ (∀ st ∈ tail, st.2.sid = some s) := by
  rcases hLU : lastUserMsg msgs with _ | m
  · refine ⟨[(none, ⟨some s, true⟩)], ?_, ?_, ?_, ?_⟩
    · simp [wrapperCreateUnit, hc, hLU]
    · simp
    · simp
    · simp
  · by_cases hA : b.addTurnOk = true
    · refine ⟨[(some (.addTurn s .USER (contentToString m.content)), ⟨some s, false⟩),
        (none, ⟨some s, true⟩)], ?_, ?_, ?_, ?_⟩
      · simp [wrapperCreateUnit, hc, hLU, hA]
      · intro ev hm
        simp only [List.filterMap_cons, List.filterMap_nil, List.mem_singleton] at hm
        rw [hm]; simp [tameFor]
      · intro ev hm
        simp only [List.filterMap_cons, List.filterMap_nil, List.mem_singleton] at hm
        rw [hm]; simp [turnRole]
      · intro st hm
        simp only [List.mem_cons, List.not_mem_nil, or_false] at hm
        rcases hm with h | h <;> rw [h]
    · have hA2 : b.addTurnOk = false := by simpa using hA
      refine ⟨[(some (.addTurnFail s .USER (contentToString m.content)),
        ⟨some s, false⟩)], ?_, ?_, ?_, ?_⟩
      · simp [wrapperCreateUnit, hc, hLU, hA2]
      · intro ev hm
        simp only [List.filterMap_cons, List.filterMap_nil, List.mem_singleton] at hm
        rw [hm]; simp [tameFor]
      · intro ev hm
        simp only [List.filterMap_cons, List.filterMap_nil, List.mem_singleton] at hm
        rw [hm]; simp [turnRole]
      · intro st hm
        simp only [List.mem_singleton] at hm
        rw [hm]

theorem wrapperRecord_okFalse {b : Backend} {im : Bool} {bx : Boxes}
    {finalMsg : Except Unit AResp} (h : bx.ok = false) :
    wrapperRecordEvents b im bx finalMsg = [] := by
  unfold wrapperRecordEvents
  cases hs : bx.sid
  · rfl
  · simp [h]

theorem wrapperRecord_tame {b : Backend} {im : Bool} {bx : Boxes}
    {finalMsg : Except Unit AResp} {s : String}
    (h : bx.sid = none ∨ bx.sid = some s) :
    ∀ ev ∈ wrapperRecordEvents b im bx finalMsg, tameFor s ev = true := by
  rcases h with h | h
  · intro ev hm
    unfold wrapperRecordEvents at hm
    rw [h] at hm
    cases hm
  · intro ev hm
    unfold wrapperRecordEvents at hm
    rw [h] at hm
    by_cases hok : bx.ok = true
    · simp only [hok] at hm
      cases finalMsg with
      | error e2 => cases hm
      | ok fm =>
        by_cases hA : b.addTurnOk = true
        · simp only [hA, if_true, List.mem_cons] at hm
          rcases hm with h1 | h1
          · rw [h1]; simp [tameFor]
          · by_cases him : im = true
            · simp [him] at h1
            · have him2 : im = false := by simpa using him
              simp only [him2, Bool.false_eq_true, if_false,
                List.mem_singleton] at h1
              rw [h1]
              exact tameFor_endEvent _ _ _ _
        · have hA2 : b.addTurnOk = false := by simpa using hA
          simp only [hA2, Bool.false_eq_true, if_false, List.mem_singleton] at hm
          rw [hm]; simp [tameFor]
    · have hok2 : bx.ok = false := by simpa using hok
      simp only [hok2] at hm
      cases hm

theorem wrapperJoinBoxes_createFail (b : Backend) (msgs : List Msg) (nJoin : Nat)
    (hc : b.createResult = none) :
    wrapperJoinBoxes b false none msgs nJoin = ⟨none, false⟩ := by
  unfold wrapperJoinBoxes
  apply boxesAfter_const
  simp [wrapperCreateUnit, hc]

theorem wrapperJoinBoxes_sid (b : Backend) (msgs : List Msg) (nJoin : Nat)
    {s : String} (hc : b.createResult = some s) :
    (wrapperJoinBoxes b false none msgs nJoin).sid = none
    ∨ (wrapperJoinBoxes b false none msgs nJoin).sid = some s := by
  obtain ⟨tail, hrun, _, _, hsid⟩ := wrapperCreateUnit_shape b msgs hc
  unfold wrapperJoinBoxes
  rcases boxesAfter_eq_init_or_mem ⟨none, false⟩ (wrapperCreateUnit b false none msgs)
      (min nJoin (wrapperCreateUnit b false none msgs).length) with he | ⟨st, hm, he⟩
  · left; rw [he]
  · right
    rw [he]
    rw [hrun] at hm
    rcases List.mem_cons.mp hm with h | h
    · rw [h]
    · exact hsid st h

theorem countP_wrapperExit (b : Backend) (im : Bool) (existing : Option String)
    (msgs : List Msg) (finalMsg : Except Unit AResp) (nJoin : Nat) (p : Event → Bool) :
    (wrapperExit b im existing msgs finalMsg nJoin).countP p
      = ((wrapperCreateUnit b im existing msgs).filterMap Prod.fst).countP p
        + (wrapperRecordEvents b im (wrapperJoinBoxes b im existing msgs nJoin)
            finalMsg).countP p := by
  simp only [wrapperExit]
  set run := wrapperCreateUnit b im existing msgs with hrundef
  set n := min nJoin run.length with hndef
  have hord : n ≤ run.length := by rw [hndef]; omega
  have e1 : eventsBetween run 0 n ++ eventsBetween run n run.length
      = eventsBetween run 0 run.length := eventsBetween_append run (by omega) hord
  have c1 : (eventsBetween run 0 n).countP p
        + (eventsBetween run n run.length).countP p
      = (eventsBetween run 0 run.length).countP p := by rw [← List.countP_append, e1]
  have c2 := eventsBetween_full run
  rw [c2] at c1
  simp only [List.countP_append]
  omega

/-- Under every backend behaviour and join outcome, the unmanaged scoped
stream wrapper never writes a turn to a session whose creation was not
observed earlier in its trace. -/
theorem wrapperExit_guarded (b : Backend) (msgs : List Msg)
    (finalMsg : Except Unit AResp) (nJoin : Nat) :
    turnsGuarded (wrapperExit b false none msgs finalMsg nJoin) [] = true := by
  cases hc : b.createResult with
  | none =>
    have hbx := wrapperJoinBoxes_createFail b msgs nJoin hc
    apply turnsGuarded_of_noTurns
    intro ev hm
    simp only [wrapperExit, List.mem_append] at hm
    rcases hm with (h | h) | h
    · have hx := mem_eventsBetween h
      simp [wrapperCreateUnit, hc] at hx
      rw [hx]; rfl
    · rw [hbx, wrapperRecord_okFalse rfl] at h
      cases h
    · have hx := mem_eventsBetween h
      simp [wrapperCreateUnit, hc] at hx
      rw [hx]; rfl
  | some s =>
    obtain ⟨tail, hrun, htame, _, _⟩ := wrapperCreateUnit_shape b msgs hc
    have hsl := sliceGuard hrun htame
    have hF := @wrapperRecord_tame b false (wrapperJoinBoxes b false none msgs nJoin)
      finalMsg s (wrapperJoinBoxes_sid b msgs nJoin hc)
    simp only [wrapperExit]
    set run := wrapperCreateUnit b false none msgs with hrundef
    set n := min nJoin run.length with hndef
    simp only [turnsGuarded_append, accAfter_append, Bool.and_eq_true]
    rcases Nat.eq_zero_or_pos n with h0 | h1
    · have hbx0 : wrapperJoinBoxes b false none msgs nJoin = ⟨none, false⟩ := by
        show boxesAfter (⟨none, false⟩ : Boxes) (wrapperCreateUnit b false none msgs)
          (min nJoin (wrapperCreateUnit b false none msgs).length) = ⟨none, false⟩
        rw [← hrundef, ← hndef, h0]
        exact boxesAfter_zero _ _
      rw [h0, eventsBetween_self, hbx0, wrapperRecord_okFalse rfl]
      exact ⟨⟨rfl, rfl⟩, (hsl 0 run.length _ (by omega)).1⟩
    · have gA := hsl 0 n [] (by omega)
      have hm1 : s ∈ accAfter (eventsBetween run 0 n) [] := gA.2.1 h1
      refine ⟨⟨gA.1, turnsGuarded_of_tame hF hm1⟩, ?_⟩
      rw [accAfter_of_tame hF]
      exact (hsl n run.length _ (fun _ => hm1)).1

/-- If the wrapper's creation unit has not completed successfully by the
moment `__exit__` reads the boxes after its bounded join, the response-turn
write is skipped outright. -/
theorem wrapperExit_noAssistant (b : Backend) (msgs : List Msg)
    (finalMsg : Except Unit AResp) (nJoin : Nat)
    (hok : (wrapperJoinBoxes b false none msgs nJoin).ok = false) :
    countRole .ASSISTANT (wrapperExit b false none msgs finalMsg nJoin) = 0 := by
  unfold countRole
  rw [countP_wrapperExit, wrapperRecord_okFalse hok]
  simp only [List.countP_nil, Nat.add_zero]
  rw [List.countP_eq_zero]
  intro ev hm hcontra
  have hAss : turnRole ev = some Role.ASSISTANT := by simpa using hcontra
  cases hc : b.createResult with
  | none =>
    simp [wrapperCreateUnit, hc] at hm
    rw [hm] at hAss
    cases hAss
  | some s =>
    obtain ⟨tail, hrun, _, hroles, _⟩ := wrapperCreateUnit_shape b msgs hc
    rw [hrun] at hm
    rw [List.filterMap_cons] at hm
    simp only [List.mem_cons] at hm
    rcases hm with h | h
    · rw [h] at hAss; cases hAss
    · exact hroles ev h hAss

theorem anthropicPreTurns_noAssistantRole (msgs : List Msg) :
    Role.ASSISTANT ∉ (anthropicPreTurns msgs).map Prod.fst := by
  intro hmem
  rcases anthropicPreTurns_roles msgs _ hmem with h | h <;> cases h

theorem countRole_assistant_createRun (b : Backend) (pre : List (Role × String))
    (hroles : Role.ASSISTANT ∉ pre.map Prod.fst) :
    countRole .ASSISTANT ((createSessionUnit b false none pre).filterMap Prod.fst)
      = 0 := by
  unfold countRole
  rw [List.countP_eq_zero]
  intro ev hm hcontra
  have : turnRole ev = some Role.ASSISTANT := by simpa using hcontra
  exact hroles (createRun_roles b pre ev hm Role.ASSISTANT this)

theorem syncErrorTrace_noAssistant (b : Backend) (pre : List (Role × String))
    (sch : Sched) (hroles : Role.ASSISTANT ∉ pre.map Prod.fst) :
    countRole .ASSISTANT (syncErrorTrace b none pre sch) = 0 := by
  unfold countRole
  rw [countP_syncErrorTrace]
  simp only [Option.isSome_none]
  have h1 := countRole_assistant_createRun b pre hroles
  unfold countRole at h1
  have h2 := countRole_failMark .ASSISTANT b none pre sch
  unfold countRole at h2
  rw [h1, h2]
  simp [turnRole]

theorem syncOkTrace_noAssistant (b : Backend) (pre : List (Role × String))
    (content : String) (sch : Sched)
    (hok : (guardBoxes b none pre sch).ok = false)
    (hroles : Role.ASSISTANT ∉ pre.map Prod.fst) :
    countRole .ASSISTANT (syncOkTrace b none pre content sch) = 0 := by
  unfold countRole
  rw [countP_syncOkTrace]
  simp only [Option.isSome_none]
  rw [recordAndEnd_okFalse hok]
  have h1 := countRole_assistant_createRun b pre hroles
  unfold countRole at h1
  rw [h1]
  simp [turnRole]

/-- C3 (amended): under every interleaving and every backend behaviour, and
for every unmanaged instrumented shape — the synchronous non-streaming call
(`instrumented_create` with its detached `_record_and_end` thread), the
`stream=True` call (whose single recording thread both creates the session
and writes the turns), and the scoped stream wrapper
(`_AnthropicStreamWrapper.__exit__` after its bounded join) — no turn is
ever written to a session before that session's creation has been observed
in the trace; and the response-turn write is skipped outright — not retried,
not queued — whenever the creation unit has not completed successfully by
the moment the recording step reads its confirmation (the `session_ok` flag
for the sync call, the joined ok-box for the wrapper, the in-thread create
outcome for `stream=True`), in particular whenever session creation failed.
The bounded waits limit how long the caller waits, but for the sync call the
join's expiry itself is not what the skip decision reads — see the
counterexample. -/
theorem claim3_ordering (ε ρ : Type) (b : Backend) (msgs : List Msg)
    (orig : Except ε ρ) (ext : ρ → String) (sch : Sched)
    (origChunks : Except ε (List AChunk)) (finalMsg : Except Unit AResp)
    (nJoin : Nat) :
    turnsGuarded
        (instrumentedCreate b none (anthropicPreTurns msgs) orig ext sch).2 [] = true
    ∧ ((guardBoxes b none (anthropicPreTurns msgs) sch).ok = false →
        countRole .ASSISTANT
          (instrumentedCreate b none (anthropicPreTurns msgs) orig ext sch).2 = 0)
    ∧ (b.createResult = none →
        countRole .ASSISTANT
          (instrumentedCreate b none (anthropicPreTurns msgs) orig ext sch).2 = 0)
    ∧ turnsGuarded (instrumentedCreateStream b none msgs origChunks).2 [] = true
    ∧ (b.createResult = none →
        countRole .ASSISTANT (instrumentedCreateStream b none msgs origChunks).2 = 0)
    ∧ turnsGuarded (wrapperExit b false none msgs finalMsg nJoin) [] = true
    ∧ ((wrapperJoinBoxes b false none msgs nJoin).ok = false →
        countRole .ASSISTANT (wrapperExit b false none msgs finalMsg nJoin) = 0)
    ∧ (b.createResult = none →
        countRole .ASSISTANT (wrapperExit b false none msgs finalMsg nJoin) = 0) := by
  have hroles := anthropicPreTurns_noAssistantRole msgs
  refine ⟨?_, ?_, ?_, ?_, ?_, ?_, ?_, ?_⟩
  · cases orig with
    | error e => exact syncErrorTrace_guarded b _ sch
    | ok r => exact syncOkTrace_guarded b _ (ext r) sch
  · intro hok
    cases orig with
    | error e => exact syncErrorTrace_noAssistant b _ sch hroles
    | ok r => exact syncOkTrace_noAssistant b _ (ext r) sch hok hroles
  · intro hc
    have hok : (guardBoxes b none (anthropicPreTurns msgs) sch).ok = false := by
      rw [guardBoxes_createFail b _ sch hc]
    cases orig with
    | error e => exact syncErrorTrace_noAssistant b _ sch hroles
    | ok r => exact syncOkTrace_noAssistant b _ (ext r) sch hok hroles
  · exact streamTrace_guarded b msgs origChunks
  · intro hc
    exact streamTrace_noAssistant_createFail b msgs origChunks hc
  · exact wrapperExit_guarded b msgs finalMsg nJoin
  · intro hok
    exact wrapperExit_noAssistant b msgs finalMsg nJoin hok
  · intro hc
    apply wrapperExit_noAssistant
    rw [wrapperJoinBoxes_createFail b msgs nJoin hc]

/-- Witness for C3 (amended): with an always-failing backend, the sync,
stream and wrapper traces are all turn-guarded and the response turn is
skipped in each. -/
theorem claim3_witness :
    turnsGuarded (instrumentedCreate failingBackend none (anthropicPreTurns demoMsgs)
        (Except.ok 0 : Except Nat Nat) (fun _ => "Hi") ⟨9, 9, 9⟩).2 [] = true
    ∧ countRole .ASSISTANT (instrumentedCreate failingBackend none
        (anthropicPreTurns demoMsgs) (Except.ok 0 : Except Nat Nat)
        (fun _ => "Hi") ⟨9, 9, 9⟩).2 = 0
    ∧ turnsGuarded (instrumentedCreateStream failingBackend none demoMsgs
        (Except.ok [] : Except Nat (List AChunk))).2 [] = true
    ∧ countRole .ASSISTANT (instrumentedCreateStream failingBackend none demoMsgs
        (Except.ok [] : Except Nat (List AChunk))).2 = 0
    ∧ turnsGuarded (wrapperExit failingBackend false none demoMsgs
        (Except.error () : Except Unit AResp) 9) [] = true
    ∧ countRole .ASSISTANT (wrapperExit failingBackend false none demoMsgs
        (Except.error () : Except Unit AResp) 9) = 0 :=
  ⟨(claim3_ordering Nat Nat failingBackend demoMsgs (Except.ok 0)
      (fun _ => "Hi") ⟨9, 9, 9⟩ (Except.ok []) (Except.error ()) 9).1,
   (claim3_ordering Nat Nat failingBackend demoMsgs (Except.ok 0)
      (fun _ => "Hi") ⟨9, 9, 9⟩ (Except.ok []) (Except.error ()) 9).2.2.1 rfl,
   (claim3_ordering Nat Nat failingBackend demoMsgs (Except.ok 0)
      (fun _ => "Hi") ⟨9, 9, 9⟩ (Except.ok []) (Except.error ()) 9).2.2.2.1,
   (claim3_ordering Nat Nat failingBackend demoMsgs (Except.ok 0)
      (fun _ => "Hi") ⟨9, 9, 9⟩ (Except.ok []) (Except.error ()) 9).2.2.2.2.1 rfl,
   (claim3_ordering Nat Nat failingBackend demoMsgs (Except.ok 0)
      (fun _ => "Hi") ⟨9, 9, 9⟩ (Except.ok []) (Except.error ()) 9).2.2.2.2.2.1,
   (claim3_ordering Nat Nat failingBackend demoMsgs (Except.ok 0)
      (fun _ => "Hi") ⟨9, 9, 9⟩ (Except.ok []) (Except.error ()) 9).2.2.2.2.2.2.1
     (by decide)⟩

/-- C3 counterexample: an execution in which the bounded wait for creation
confirmation expires — `join(timeout=5)` returns with 0 of the 3 creation
steps done — yet the response turn is still written, because the code never
inspects the join outcome: the skip decision reads `session_ok` in the
detached recording thread, and by then the creation thread has finished.
This refutes the conjunct "when the bounded wait for creation confirmation
expires ... the response-turn write is skipped outright" as stated. -/
theorem claim3_counterexample :
    joinSteps ⟨0, 0, 9⟩ (createSessionUnit demoBackend false none
        (anthropicPreTurns demoMsgs)).length
      < (createSessionUnit demoBackend false none (anthropicPreTurns demoMsgs)).length
    ∧ countRole .ASSISTANT (instrumentedCreate demoBackend none
        (anthropicPreTurns demoMsgs) (Except.ok 0 : Except Nat Nat)
        (fun _ => "Hi") ⟨0, 0, 9⟩).2 = 1 := by
  decide

theorem countP_map_addTurn_zero (p : Event → Bool) (s : String)
    (pre : List (Role × String)) (h : ∀ s2 r c, p (Event.addTurn s2 r c) = false) :
    (pre.map (fun rc => Event.addTurn s rc.1 rc.2)).countP p = 0 := by
  rw [List.countP_eq_zero]
  intro ev hm
  obtain ⟨rc, _, heq⟩ := List.mem_map.mp hm
  rw [← heq]
  simp [h]

theorem asyncError_events {ε ρ : Type} (b : Backend) {s : String}
    (hc : b.createResult = some s) (pre : List (Role × String)) (e : ε)
    (ext : ρ → String) :
    (instrumentedCreateAsync b none pre (Except.error e) ext).2
      = (Event.createSession s :: asyncTurnEvents b s pre) ++ [Event.origStart]
        ++ [endEvent b s .FAILED] := by
  simp [instrumentedCreateAsync, asyncPreEvents, hc]

/-- C2: for an unmanaged call whose original provider call raises (with a
backend whose session-create and turn writes succeed), under every
interleaving the interception layer issues exactly one `create_session`,
exactly one USER `add_turn` when a user message is present, zero ASSISTANT
`add_turn`, at most one best-effort `end_session(FAILED)` (exactly one in
the async shape) whose own failure is swallowed, no COMPLETED end, and
re-raises the original exception unchanged. -/
theorem claim2_unmanaged_error (ε ρ : Type) (sid : String) (endOkv : Bool)
    (msgs : List Msg) (sch : Sched) (e : ε) (ext : ρ → String) :
    (instrumentedCreate ⟨some sid, true, endOkv⟩ none (anthropicPreTurns msgs)
        (Except.error e) ext sch).1 = Except.error e
    ∧ countCreateAttempts (instrumentedCreate ⟨some sid, true, endOkv⟩ none
        (anthropicPreTurns msgs) (Except.error e) ext sch).2 = 1
    ∧ ((lastUserMsg msgs).isSome = true →
        countRole .USER (instrumentedCreate ⟨some sid, true, endOkv⟩ none
          (anthropicPreTurns msgs) (Except.error e) ext sch).2 = 1)
    ∧ countRole .ASSISTANT (instrumentedCreate ⟨some sid, true, endOkv⟩ none
        (anthropicPreTurns msgs) (Except.error e) ext sch).2 = 0
    ∧ countEnd .FAILED (instrumentedCreate ⟨some sid, true, endOkv⟩ none
        (anthropicPreTurns msgs) (Except.error e) ext sch).2 ≤ 1
    ∧ countEnd .COMPLETED (instrumentedCreate ⟨some sid, true, endOkv⟩ none
        (anthropicPreTurns msgs) (Except.error e) ext sch).2 = 0
    ∧ (instrumentedCreateAsync ⟨some sid, true, endOkv⟩ none (anthropicPreTurns msgs)
        (Except.error e) ext).1 = Except.error e
    ∧ countCreateAttempts (instrumentedCreateAsync ⟨some sid, true, endOkv⟩ none
        (anthropicPreTurns msgs) (Except.error e) ext).2 = 1
    ∧ ((lastUserMsg msgs).isSome = true →
        countRole .USER (instrumentedCreateAsync ⟨some sid, true, endOkv⟩ none
          (anthropicPreTurns msgs) (Except.error e) ext).2 = 1)
    ∧ countRole .ASSISTANT (instrumentedCreateAsync ⟨some sid, true, endOkv⟩ none
        (anthropicPreTurns msgs) (Except.error e) ext).2 = 0
    ∧ countEnd .FAILED (instrumentedCreateAsync ⟨some sid, true, endOkv⟩ none
        (anthropicPreTurns msgs) (Except.error e) ext).2 = 1
    ∧ countEnd .COMPLETED (instrumentedCreateAsync ⟨some sid, true, endOkv⟩ none
        (anthropicPreTurns msgs) (Except.error e) ext).2 = 0 := by
  set b : Backend := ⟨some sid, true, endOkv⟩ with hbdef
  have hc : b.createResult = some sid := rfl
  have hA : b.addTurnOk = true := rfl
  have hrunEv := createRun_events_allOk b hc hA (anthropicPreTurns msgs)
  have hasync := asyncError_events b hc (anthropicPreTurns msgs) e ext
  have hTE := asyncTurnEvents_allOk b sid hA (anthropicPreTurns msgs)
  refine ⟨rfl, ?_, ?_, ?_, ?_, ?_, rfl, ?_, ?_, ?_, ?_, ?_⟩
  · -- sync: exactly one create attempt
    show countCreateAttempts (syncErrorTrace b none (anthropicPreTurns msgs) sch) = 1
    unfold countCreateAttempts
    rw [countP_syncErrorTrace]
    simp only [Option.isSome_none]
    rw [hrunEv, List.countP_cons]
    have hmap := countP_map_addTurn_zero
      (fun ev => match ev with
        | Event.createSession _ => true
        | Event.createSessionFail => true
        | _ => false) sid (anthropicPreTurns msgs) (fun _ _ _ => rfl)
    have hfm := countCreateAttempts_failMark b none (anthropicPreTurns msgs) sch
    unfold countCreateAttempts at hfm
    rw [hmap, hfm]
    simp
  · -- sync: exactly one USER turn when a user message is present
    intro hLU
    show countRole .USER (syncErrorTrace b none (anthropicPreTurns msgs) sch) = 1
    unfold countRole
    rw [countP_syncErrorTrace]
    simp only [Option.isSome_none]
    rw [hrunEv, List.countP_cons]
    have hmap := countRole_map_addTurn .USER sid (anthropicPreTurns msgs)
    unfold countRole at hmap
    rw [hmap, anthropicPreTurns_countUser msgs, hLU]
    have hfm := countRole_failMark .USER b none (anthropicPreTurns msgs) sch
    unfold countRole at hfm
    rw [hfm]
    simp [turnRole]
  · -- sync: zero ASSISTANT turns
    exact syncErrorTrace_noAssistant b _ sch (anthropicPreTurns_noAssistantRole msgs)
  · -- sync: at most one FAILED end
    show countEnd .FAILED (syncErrorTrace b none (anthropicPreTurns msgs) sch) ≤ 1
    unfold countEnd
    rw [countP_syncErrorTrace]
    simp only [Option.isSome_none]
    rw [hrunEv, List.countP_cons]
    have hmap := countP_map_addTurn_zero
      (fun ev => match ev with
        | Event.endSession _ s2 => s2 == SessionStatus.FAILED
        | Event.endSessionFail _ s2 => s2 == SessionStatus.FAILED
        | _ => false) sid (anthropicPreTurns msgs) (fun _ _ _ => rfl)
    have hfm := countEnd_failMark_le .FAILED b none (anthropicPreTurns msgs) sch
    unfold countEnd at hfm
    rw [hmap]
    simp
    omega
  · -- sync: zero COMPLETED ends
    show countEnd .COMPLETED (syncErrorTrace b none (anthropicPreTurns msgs) sch) = 0
    unfold countEnd
    rw [countP_syncErrorTrace]
    simp only [Option.isSome_none]
    rw [hrunEv, List.countP_cons]
    have hmap := countP_map_addTurn_zero
      (fun ev => match ev with
        | Event.endSession _ s2 => s2 == SessionStatus.COMPLETED
        | Event.endSessionFail _ s2 => s2 == SessionStatus.COMPLETED
        | _ => false) sid (anthropicPreTurns msgs) (fun _ _ _ => rfl)
    have hfm := countEnd_failMark_completed b none (anthropicPreTurns msgs) sch
    unfold countEnd at hfm
    rw [hmap, hfm]
    simp
  · -- async: exactly one create attempt
    unfold countCreateAttempts
    rw [hasync, hTE]
    simp only [List.countP_append]
    have hmap := countP_map_addTurn_zero
      (fun ev => match ev with
        | Event.createSession _ => true
        | Event.createSessionFail => true
        | _ => false) sid (anthropicPreTurns msgs) (fun _ _ _ => rfl)
    have hend := countCreateAttempts_endEvent b sid .FAILED
    unfold countCreateAttempts at hend
    rw [List.countP_cons, hmap, hend]
    simp
  · -- async: exactly one USER turn when a user message is present
    intro hLU
    unfold countRole
    rw [hasync, hTE]
    simp only [List.countP_append]
    have hmap := countRole_map_addTurn .USER sid (anthropicPreTurns msgs)
    unfold countRole at hmap
    have hcu := anthropicPreTurns_countUser msgs
    have hend := countRole_endEvent .USER b sid .FAILED
    unfold countRole at hend
    rw [List.countP_cons, hmap, hcu, hLU, hend]
    simp [turnRole]
  · -- async: zero ASSISTANT turns
    unfold countRole
    rw [hasync, hTE]
    simp only [List.countP_append]
    have hmap := countRole_map_addTurn .ASSISTANT sid (anthropicPreTurns msgs)
    unfold countRole at hmap
    have hca := anthropicPreTurns_countAssistant msgs
    have hend := countRole_endEvent .ASSISTANT b sid .FAILED
    unfold countRole at hend
    rw [List.countP_cons, hmap, hca, hend]
    simp [turnRole]
  · -- async: exactly one FAILED end
    unfold countEnd
    rw [hasync, hTE]
    simp only [List.countP_append]
    have hmap := countP_map_addTurn_zero
      (fun ev => match ev with
        | Event.endSession _ s2 => s2 == SessionStatus.FAILED
        | Event.endSessionFail _ s2 => s2 == SessionStatus.FAILED
        | _ => false) sid (anthropicPreTurns msgs) (fun _ _ _ => rfl)
    have hend := countEnd_endEvent .FAILED .FAILED b sid
    unfold countEnd at hend
    rw [List.countP_cons, hmap, hend]
    simp
  · -- async: zero COMPLETED ends
    unfold countEnd
    rw [hasync, hTE]
    simp only [List.countP_append]
    have hmap := countP_map_addTurn_zero
      (fun ev => match ev with
        | Event.endSession _ s2 => s2 == SessionStatus.COMPLETED
        | Event.endSessionFail _ s2 => s2 == SessionStatus.COMPLETED
        | _ => false) sid (anthropicPreTurns msgs) (fun _ _ _ => rfl)
    have hend := countEnd_endEvent .COMPLETED .FAILED b sid
    unfold countEnd at hend
    rw [List.countP_cons, hmap, hend]
    simp

/-- Witness for C2: a concrete user message, a backend that also fails the
FAILED-end write (the failure is swallowed and the exception re-raised). -/
theorem claim2_witness :
    (instrumentedCreate ⟨some "S1", true, false⟩ none (anthropicPreTurns demoMsgs)
        (Except.error 7 : Except Nat Nat) (fun _ => "Hi") ⟨9, 9, 9⟩).1
      = Except.error 7
    ∧ countCreateAttempts (instrumentedCreate ⟨some "S1", true, false⟩ none
        (anthropicPreTurns demoMsgs) (Except.error 7 : Except Nat Nat)
        (fun _ => "Hi") ⟨9, 9, 9⟩).2 = 1
    ∧ countRole .USER (instrumentedCreate ⟨some "S1", true, false⟩ none
        (anthropicPreTurns demoMsgs) (Except.error 7 : Except Nat Nat)
        (fun _ => "Hi") ⟨9, 9, 9⟩).2 = 1 :=
  ⟨(claim2_unmanaged_error Nat Nat "S1" false demoMsgs ⟨9, 9, 9⟩ 7 (fun _ => "Hi")).1,
   (claim2_unmanaged_error Nat Nat "S1" false demoMsgs ⟨9, 9, 9⟩ 7 (fun _ => "Hi")).2.1,
   (claim2_unmanaged_error Nat Nat "S1" false demoMsgs ⟨9, 9, 9⟩ 7
      (fun _ => "Hi")).2.2.1 rfl⟩

theorem countP_turnSteps_zero (p : Event → Bool) (b : Backend) (bx : Boxes)
    (pre : List (Role × String))
    (h1 : ∀ s2 r c, p (Event.addTurn s2 r c) = false)
    (h2 : ∀ s2 r c, p (Event.addTurnFail s2 r c) = false) :
    ((turnSteps b bx pre).filterMap Prod.fst).countP p = 0 := by
  rw [List.countP_eq_zero]
  intro ev hm hp
  obtain ⟨s2, r, c, h | h⟩ := turnSteps_mem_shape b bx pre ev hm <;>
    subst h <;> simp [h1, h2] at hp

theorem countP_asyncTurnEvents_zero (p : Event → Bool) (b : Backend) (s : String)
    (pre : List (Role × String))
    (h1 : ∀ s2 r c, p (Event.addTurn s2 r c) = false)
    (h2 : ∀ s2 r c, p (Event.addTurnFail s2 r c) = false) :
    (asyncTurnEvents b s pre).countP p = 0 := by
  rw [List.countP_eq_zero]
  intro ev hm hp
  obtain ⟨r, c, h | h⟩ := asyncTurnEvents_mem b s pre ev hm <;>
    subst h <;> simp [h1, h2] at hp

theorem tameFor_turnsOnly_pred {S : String} {ev : Event} (h : tameFor S ev = true) :
    ((turnTarget ev).getD S == S) = true := by
  cases ev <;> simp [turnTarget] <;> simpa [tameFor] using h

theorem wrapperExit_managed (b : Backend) (S : String) (msgs : List Msg)
    (finalMsg : Except Unit AResp) (nJoin : Nat) :
    wrapperExit b true (some S) msgs finalMsg nJoin
      = match finalMsg with
        | .error _ => []
        | .ok fm =>
          if b.addTurnOk then [Event.addTurn S .ASSISTANT (extractAnthropicText fm)]
          else [Event.addTurnFail S .ASSISTANT (extractAnthropicText fm)] := by
  cases finalMsg <;> by_cases hA : b.addTurnOk = true <;>
    simp [wrapperExit, wrapperCreateUnit, wrapperJoinBoxes, wrapperRecordEvents,
      boxesAfter, eventsBetween, hA, List.take_nil, List.drop_nil]

theorem syncManaged_props (ε ρ : Type) (b : Backend) (S : String)
    (pre : List (Role × String)) (orig : Except ε ρ) (ext : ρ → String)
    (sch : Sched) :
    countCreateAttempts (instrumentedCreate b (some S) pre orig ext sch).2 = 0
    ∧ turnsOnlyTo S (instrumentedCreate b (some S) pre orig ext sch).2 = true
    ∧ ∀ st, countEnd st (instrumentedCreate b (some S) pre orig ext sch).2 = 0 := by
  have hrun : createSessionUnit b (some S : Option String).isSome (some S) pre
      = turnSteps b ⟨some S, true⟩ pre := by
    simp only [Option.isSome_some]
    exact createSessionUnit_managed b pre S
  have htame : ∀ ev ∈ (turnSteps b ⟨some S, true⟩ pre).filterMap Prod.fst,
      tameFor S ev = true := turnSteps_tame b rfl pre
  have hfm := failMark_managed b S pre sch
  have hgb : (guardBoxes b (some S) pre sch).sid = none
      ∨ (guardBoxes b (some S) pre sch).sid = some S := by
    rw [guardBoxes_managed]
    exact Or.inr rfl
  refine ⟨?_, ?_, ?_⟩
  · cases orig with
    | error e =>
      show countCreateAttempts (syncErrorTrace b (some S) pre sch) = 0
      unfold countCreateAttempts
      rw [countP_syncErrorTrace, hrun, hfm]
      rw [countP_turnSteps_zero _ b _ pre (fun _ _ _ => rfl) (fun _ _ _ => rfl)]
      simp
    | ok r =>
      show countCreateAttempts (syncOkTrace b (some S) pre (ext r) sch) = 0
      unfold countCreateAttempts
      rw [countP_syncOkTrace, hrun]
      rw [countP_turnSteps_zero _ b _ pre (fun _ _ _ => rfl) (fun _ _ _ => rfl)]
      have hrec := countCreateAttempts_recordAndEnd b
        (some S : Option String).isSome (guardBoxes b (some S) pre sch) (ext r)
      unfold countCreateAttempts at hrec
      rw [hrec]
      simp
  · rw [turnsOnlyTo, List.all_eq_true]
    intro ev hm
    cases orig with
    | error e =>
      rcases mem_syncErrorTrace hm with h | h | h
      · rw [hrun] at h
        exact tameFor_turnsOnly_pred (htame ev h)
      · rw [hfm] at h
        cases h
      · rw [h]; simp [turnTarget]
    | ok r =>
      rcases mem_syncOkTrace hm with h | h | h | h
      · rw [hrun] at h
        exact tameFor_turnsOnly_pred (htame ev h)
      · exact tameFor_turnsOnly_pred (recordAndEnd_tame hgb ev h)
      · rw [h]; simp [turnTarget]
      · rw [h]; simp [turnTarget]
  · intro st
    cases orig with
    | error e =>
      show countEnd st (syncErrorTrace b (some S) pre sch) = 0
      unfold countEnd
      rw [countP_syncErrorTrace, hrun, hfm]
      rw [countP_turnSteps_zero _ b _ pre (fun _ _ _ => rfl) (fun _ _ _ => rfl)]
      simp
    | ok r =>
      show countEnd st (syncOkTrace b (some S) pre (ext r) sch) = 0
      unfold countEnd
      rw [countP_syncOkTrace, hrun]
      rw [countP_turnSteps_zero _ b _ pre (fun _ _ _ => rfl) (fun _ _ _ => rfl)]
      have hrec := countEnd_recordAndEnd_managed st b
        (guardBoxes b (some S) pre sch) (ext r)
      unfold countEnd at hrec
      simp only [Option.isSome_some]
      rw [hrec]
      simp

theorem streamManaged_props (ε : Type) (b : Backend) (S : String) (msgs : List Msg)
    (origChunks : Except ε (List AChunk)) :
    countCreateAttempts (instrumentedCreateStream b (some S) msgs origChunks).2 = 0
    ∧ turnsOnlyTo S (instrumentedCreateStream b (some S) msgs origChunks).2 = true
    ∧ ∀ st, countEnd st (instrumentedCreateStream b (some S) msgs origChunks).2 = 0 := by
  cases origChunks with
  | error e =>
    refine ⟨rfl, by simp [instrumentedCreateStream, turnsOnlyTo, turnTarget], fun st => rfl⟩
  | ok chunks =>
    by_cases hA : b.addTurnOk = true
    · refine ⟨?_, ?_, fun st => ?_⟩ <;>
        simp [instrumentedCreateStream, hA, countCreateAttempts, countEnd,
          turnsOnlyTo, turnTarget, List.countP_cons, List.countP_nil]
    · have hA2 : b.addTurnOk = false := by simpa using hA
      refine ⟨?_, ?_, fun st => ?_⟩ <;>
        simp [instrumentedCreateStream, hA2, countCreateAttempts, countEnd,
          turnsOnlyTo, turnTarget, List.countP_cons, List.countP_nil]

theorem wrapperManaged_props (b : Backend) (S : String) (msgs : List Msg)
    (finalMsg : Except Unit AResp) (nJoin : Nat) :
    countCreateAttempts (wrapperExit b true (some S) msgs finalMsg nJoin) = 0
    ∧ turnsOnlyTo S (wrapperExit b true (some S) msgs finalMsg nJoin) = true
    ∧ ∀ st, countEnd st (wrapperExit b true (some S) msgs finalMsg nJoin) = 0 := by
  rw [wrapperExit_managed]
  cases finalMsg with
  | error e => exact ⟨rfl, rfl, fun st => rfl⟩

  | ok fm =>
    by_cases hA : b.addTurnOk = true
    · refine ⟨?_, ?_, fun st => ?_⟩ <;>
        simp [hA, countCreateAttempts, countEnd, turnsOnlyTo, turnTarget,
          List.countP_cons, List.countP_nil]
    · have hA2 : b.addTurnOk = false := by simpa using hA
      refine ⟨?_, ?_, fun st => ?_⟩ <;>
        simp [hA2, countCreateAttempts, countEnd, turnsOnlyTo, turnTarget,
          List.countP_cons, List.countP_nil]

theorem asyncManaged_props (ε ρ : Type) (b : Backend) (S : String)
    (pre : List (Role × String)) (orig : Except ε ρ) (ext : ρ → String) :
    countCreateAttempts (instrumentedCreateAsync b (some S) pre orig ext).2 = 0
    ∧ turnsOnlyTo S (instrumentedCreateAsync b (some S) pre orig ext).2 = true
    ∧ ∀ st, countEnd st (instrumentedCreateAsync b (some S) pre orig ext).2 = 0 := by
  have hTE0 : ∀ (p : Event → Bool), (∀ s2 r c, p (Event.addTurn s2 r c) = false) →
      (∀ s2 r c, p (Event.addTurnFail s2 r c) = false) →
      (asyncTurnEvents b S pre).countP p = 0 := fun p h1 h2 =>
    countP_asyncTurnEvents_zero p b S pre h1 h2
  have hTEonly : ∀ ev ∈ asyncTurnEvents b S pre,
      ((turnTarget ev).getD S == S) = true := by
    intro ev hm
    obtain ⟨r, c, h | h⟩ := asyncTurnEvents_mem b S pre ev hm <;> subst h <;>
      simp [turnTarget]
  cases orig with
  | error e =>
    have htr : (instrumentedCreateAsync b (some S) pre (Except.error e) ext).2
        = asyncTurnEvents b S pre ++ [Event.origStart] := by
      simp [instrumentedCreateAsync, asyncPreEvents]
    rw [htr]
    refine ⟨?_, ?_, fun st => ?_⟩
    · unfold countCreateAttempts
      rw [List.countP_append, hTE0 _ (fun _ _ _ => rfl) (fun _ _ _ => rfl)]
      rfl
    · rw [turnsOnlyTo, List.all_eq_true]
      intro ev hm
      rcases List.mem_append.mp hm with h | h
      · exact hTEonly ev h
      · simp only [List.mem_singleton] at h
        rw [h]; simp [turnTarget]
    · unfold countEnd
      rw [List.countP_append, hTE0 _ (fun _ _ _ => rfl) (fun _ _ _ => rfl)]
      rfl
  | ok r =>
    have htr : (instrumentedCreateAsync b (some S) pre (Except.ok r : Except ε ρ) ext).2
        = asyncTurnEvents b S pre ++ [Event.origStart, Event.origEnd]
          ++ (if b.addTurnOk then [Event.addTurn S .ASSISTANT (ext r)]
              else [Event.addTurnFail S .ASSISTANT (ext r)]) := by
      by_cases hA : b.addTurnOk = true
      · simp [instrumentedCreateAsync, asyncPreEvents, hA]
      · have hA2 : b.addTurnOk = false := by simpa using hA
        simp [instrumentedCreateAsync, asyncPreEvents, hA2]
    rw [htr]
    have hrec0 : ∀ (p : Event → Bool), (∀ s2 r2 c, p (Event.addTurn s2 r2 c) = false) →
        (∀ s2 r2 c, p (Event.addTurnFail s2 r2 c) = false) →
        (if b.addTurnOk then [Event.addTurn S .ASSISTANT (ext r)]
         else [Event.addTurnFail S .ASSISTANT (ext r)]).countP p = 0 := by
      intro p h1 h2
      split <;> simp [List.countP_cons, List.countP_nil, h1, h2]
    refine ⟨?_, ?_, fun st => ?_⟩
    · unfold countCreateAttempts
      rw [List.countP_append, List.countP_append,
        hTE0 _ (fun _ _ _ => rfl) (fun _ _ _ => rfl),
        hrec0 _ (fun _ _ _ => rfl) (fun _ _ _ => rfl)]
      rfl
    · rw [turnsOnlyTo, List.all_eq_true]
      intro ev hm
      rcases List.mem_append.mp hm with h | h
      · rcases List.mem_append.mp h with h2 | h2
        · exact hTEonly ev h2
        · rcases List.mem_cons.mp h2 with h3 | h3
          · rw [h3]; simp [turnTarget]
          · simp only [List.mem_singleton] at h3
            rw [h3]; simp [turnTarget]
      · revert h
        split <;> intro h <;> simp only [List.mem_singleton] at h <;> rw [h] <;>
          simp [turnTarget]
    · unfold countEnd
      rw [List.countP_append, List.countP_append,
        hTE0 _ (fun _ _ _ => rfl) (fun _ _ _ => rfl),
        hrec0 _ (fun _ _ _ => rfl) (fun _ _ _ => rfl)]
      rfl

/-- C4: for every call made while the active-session handle holds a session
id `S` (a managed call), in every shape (sync, `stream=True`, scoped stream
exit, async), under every backend behaviour and interleaving: the wrapped
call issues no `create_session`, directs every turn-write attempt to `S`,
and never issues an `end_session`; ending `S` is done only by the caller's
session scope, which ends the session it created exactly once. -/
theorem claim4_managed_call (ε ρ : Type) (b : Backend) (S : String)
    (pre : List (Role × String)) (msgs : List Msg) (orig : Except ε ρ)
    (ext : ρ → String) (sch : Sched) (origChunks : Except ε (List AChunk))
    (finalMsg : Except Unit AResp) (nJoin : Nat) (prior : Option String)
    (body : Option String → Option String → Except ε ρ) :
    (countCreateAttempts (instrumentedCreate b (some S) pre orig ext sch).2 = 0
      ∧ turnsOnlyTo S (instrumentedCreate b (some S) pre orig ext sch).2 = true
      ∧ ∀ st, countEnd st (instrumentedCreate b (some S) pre orig ext sch).2 = 0)
    ∧ (countCreateAttempts (instrumentedCreateStream b (some S) msgs origChunks).2 = 0
      ∧ turnsOnlyTo S (instrumentedCreateStream b (some S) msgs origChunks).2 = true
      ∧ ∀ st, countEnd st (instrumentedCreateStream b (some S) msgs origChunks).2 = 0)
    ∧ (countCreateAttempts (wrapperExit b true (some S) msgs finalMsg nJoin) = 0
      ∧ turnsOnlyTo S (wrapperExit b true (some S) msgs finalMsg nJoin) = true
      ∧ ∀ st, countEnd st (wrapperExit b true (some S) msgs finalMsg nJoin) = 0)
    ∧ (countCreateAttempts (instrumentedCreateAsync b (some S) pre orig ext).2 = 0
      ∧ turnsOnlyTo S (instrumentedCreateAsync b (some S) pre orig ext).2 = true
      ∧ ∀ st, countEnd st (instrumentedCreateAsync b (some S) pre orig ext).2 = 0)
    ∧ (b.createResult = some S →
        countEnd .COMPLETED (sessionRun b prior body).trace = 1
        ∧ countEnd .FAILED (sessionRun b prior body).trace = 0) := by
  refine ⟨syncManaged_props ε ρ b S pre orig ext sch,
    streamManaged_props ε b S msgs origChunks,
    wrapperManaged_props b S msgs finalMsg nJoin,
    asyncManaged_props ε ρ b S pre orig ext, ?_⟩
  intro hc
  simp only [sessionRun, hc]
  constructor
  · unfold countEnd endEvent
    split <;> simp [List.countP_cons, List.countP_nil]
  · unfold countEnd endEvent
    split <;> simp [List.countP_cons, List.countP_nil]

/-- Witness for C4 at a concrete managed call and a concrete scope. -/
theorem claim4_witness :
    countCreateAttempts (instrumentedCreate demoBackend (some "S1")
        (anthropicPreTurns demoMsgs) (Except.ok 0 : Except Nat Nat)
        (fun _ => "Hi") ⟨9, 9, 9⟩).2 = 0
    ∧ countEnd .COMPLETED (sessionRun demoBackend none
        (fun _ _ => (Except.ok 0 : Except Nat Nat))).trace = 1 :=
  ⟨(claim4_managed_call Nat Nat demoBackend "S1" (anthropicPreTurns demoMsgs)
      demoMsgs (Except.ok 0) (fun _ => "Hi") ⟨9, 9, 9⟩ (Except.ok [])
      (Except.error ()) 9 none (fun _ _ => Except.ok 0)).1.1,
   ((claim4_managed_call Nat Nat demoBackend "S1" (anthropicPreTurns demoMsgs)
      demoMsgs (Except.ok 0) (fun _ => "Hi") ⟨9, 9, 9⟩ (Except.ok [])
      (Except.error ()) 9 none (fun _ _ => Except.ok 0)).2.2.2.2 rfl).1⟩

end Provenant
